import Mathlib

/-!
# Session controller of the marathon game mode (internal/marathon/model.go)

A shallow embedding of `NewModel`, `Model.Init` and `Model.Update`.  The controller is a
function from a state and one message to the next state and a command; the puzzle engine
is a parameter (`Engine`), the stopwatch component and the key map are modelled as the
controller uses them.
-/

namespace Tetrigo

/-! ## Durations and machine integers -/

/-- A time.Duration: a signed 64-bit count of nanoseconds. -/
abbrev Duration := Int

/-- The constant time.Millisecond. -/
def Millisecond : Duration := 1000000

/-- The constant time.Second. -/
def Second : Duration := 1000000000

/-- Two's-complement wrap of an integer result to the int64 range. -/
def wrapInt64 (x : Int) : Int :=
  (x + 9223372036854775808) % 18446744073709551616 - 9223372036854775808

/-! ## Messages and commands -/

/-- The logical actions a key press can be bound to (the fields of the key map). -/
inductive Action
  | Quit
  | Pause
  | Help
  | Left
  | Right
  | Clockwise
  | CounterClockwise
  | HardDrop
  | SoftDrop
  | Hold
deriving DecidableEq, Repr

/-- Modelled from the spec: the key map (keyMap and defaultKeyMap are declared outside
src/).  Section 6 describes "discrete key-press identifiers mapped to the logical actions
{Quit, Pause, Help, Left, Right, RotateCW, RotateCCW, HardDrop, SoftDrop, Hold}": a key
press, identified by its string, is bound to at most one action. -/
structure keyMap where
  bindings : List (String × Action)
deriving DecidableEq, Repr

/-- The test key.Matches(msg, m.keys.X): the pressed key is bound to action X. -/
def Matches (k : String) (keys : keyMap) (a : Action) : Bool :=
  keys.bindings.lookup k == some a

/-- The messages Model.Update distinguishes (tea.Msg).  KeyMsg carries the key string,
TickMsg the identity of the stopwatch that produced it; StartStopMsg and ResetMsg are the
stopwatch messages that the two clocks consume. -/
inductive Msg
  | KeyMsg (k : String)
  | WindowSizeMsg (Width Height : Int)
  | TickMsg (ID : Int)
  | StartStopMsg (ID : Int) (running : Bool)
  | ResetMsg (ID : Int)
  | SwitchModeMsg (Target : Int)
  | other
deriving DecidableEq, Repr

/-- A command produced by a stopwatch (tea.Cmd), kept symbolic: what the runtime is asked
to do.  `none` is the nil command. -/
inductive TimerCmd
  | none
  | start (id : Int) (interval : Duration)
  | stop (id : Int)
  | reset (id : Int)
  | tick (id : Int) (interval : Duration)
deriving DecidableEq, Repr

/-- The command returned by Model.Update: either tea.Quit or tea.Batch(cmds...). -/
inductive Cmd
  | Quit
  | Batch (cmds : List TimerCmd)
deriving DecidableEq, Repr

/-! ## The stopwatch component -/

namespace stopwatch

/-- Modelled from the spec: the stopwatch component is an imported library (package
stopwatch of charmbracelet/bubbles), not under src/.  Section 3 makes a timer handle "an
opaque identity plus an interval duration and running/stopped flag"; `d` is the elapsed
time that reset() clears.  The identity is the int that ID() returns and that a TickMsg
carries in its ID field. -/
structure Model where
  d : Duration
  id : Int
  running : Bool
  Interval : Duration
deriving DecidableEq, Repr

/-- The zero value of a stopwatch (every field zero, identity 0): what the controller's
field gameOverStopwatch, declared by value and not assigned in NewModel, holds until
the end-delay stopwatch is created. -/
def zero : Model :=
  { d := 0, id := 0, running := false, Interval := 0 }

/-- Modelled from the spec: NewWithInterval creates a stopped stopwatch with the given
interval and a fresh identity (section 4.1, "CreateTimer(interval)->handle").  The
library numbers its stopwatches from a package counter that is incremented before use,
so the identities handed out are 1, 2, 3, ...; the counter is passed in as `lastID` and
its new value is returned with the stopwatch. -/
def NewWithInterval (lastID : Int) (interval : Duration) : Model × Int :=
  ({ d := 0, id := wrapInt64 (lastID + 1), running := false, Interval := interval },
   wrapInt64 (lastID + 1))

/-- The identity of a stopwatch. -/
def Model.ID (m : Model) : Int := m.id

/-- Whether the stopwatch is running. -/
def Model.Running (m : Model) : Bool := m.running

/-- Modelled from the spec: start() asks the runtime to mark the stopwatch running and to
schedule its first tick. -/
def Model.Start (m : Model) : TimerCmd := TimerCmd.start m.id m.Interval

/-- Modelled from the spec: stop() asks the runtime to mark the stopwatch stopped. -/
def Model.Stop (m : Model) : TimerCmd := TimerCmd.stop m.id

/-- Modelled from the spec: toggle() is "start if stopped, stop if running". -/
def Model.Toggle (m : Model) : TimerCmd :=
  if m.Running then m.Stop else m.Start

/-- Modelled from the spec: reset() asks the runtime to clear the elapsed time. -/
def Model.Reset (m : Model) : TimerCmd := TimerCmd.reset m.id

/-- Init starts the stopwatch. -/
def Model.Init (m : Model) : TimerCmd := m.Start

/-- Modelled from the spec: the stopwatch's own message handler.  It reacts only to
messages that carry its identity: a start/stop message sets the running flag, a reset
message clears the elapsed time, and a tick (while running) adds the interval to the
elapsed time and schedules the next tick. -/
def Model.Update (m : Model) : Msg → Model × TimerCmd
  | Msg.StartStopMsg ID running =>
    if ID ≠ m.id then (m, TimerCmd.none)
    else ({ m with running := running }, TimerCmd.none)
  | Msg.ResetMsg ID =>
    if ID ≠ m.id then (m, TimerCmd.none)
    else ({ m with d := 0 }, TimerCmd.none)
  | Msg.TickMsg ID =>
    if !m.running || ID ≠ m.id then (m, TimerCmd.none)
    else ({ m with d := wrapInt64 (m.d + m.Interval) }, TimerCmd.tick m.id m.Interval)
  | _ => (m, TimerCmd.none)

end stopwatch

/-! ## The engine adapter -/

/-- The operations of the puzzle engine (*marathon.Game) that the controller calls, over an
abstract engine state `G`.  The engine package is not part of this development: the
general theorems below hold for every engine.  An operation that returns a Go error
returns `Except.error`; otherwise it returns its results and the engine state it leaves
behind. -/
structure Engine (G : Type) where
  NewGame : Nat → Nat → Except String G
  DefaultTime : G → Duration
  IsGameOver : G → Bool
  MoveLeft : G → Except String G
  MoveRight : G → Except String G
  Rotate : Bool → G → Except String G
  HardDrop : G → Except String (Bool × G)
  ToggleSoftDrop : G → Duration × G
  Hold : G → Except String G
  TickLower : G → Except String (Bool × G)

/-! ## The controller -/

/-- The part of the styles that Update touches: the size of the full-screen frame. -/
structure Styles where
  fullscreenWidth : Int
  fullscreenHeight : Int
deriving DecidableEq, Repr

/-- The argument of NewModel. -/
structure Input where
  isFullscreen : Bool
  level : Nat
  maxLevel : Nat
deriving DecidableEq, Repr

/-- What the controller takes from the packages around it: the constant
internal.MODE_MENU and the outcome of loading the configuration (config.GetConfig followed
by CreateStyles). -/
structure Env where
  MODE_MENU : Int
  GetConfig : Except String Styles

/-- The controller state (struct Model).  `helpShowAll` is help.ShowAll; the cfg field is
read by the view only and left out. -/
structure Model (G : Type) where
  styles : Styles
  helpShowAll : Bool
  keys : keyMap
  timer : stopwatch.Model
  isFullscreen : Bool
  paused : Bool
  fallStopwatch : stopwatch.Model
  gameOverStopwatch : stopwatch.Model
  game : G
deriving DecidableEq, Repr

/-- The controller together with the stopwatch package's identity counter. -/
structure World (G : Type) where
  lastID : Int
  m : Model G
deriving DecidableEq, Repr

/-- NewModel: creates the game, the session clock (1 ms interval) and the fall clock
(interval game.Fall.DefaultTime), then loads the configuration.  The end-delay stopwatch
is left at its zero value.  `keys` stands for the result of defaultKeyMap() and `lastID`
for the stopwatch package's identity counter at the time of the call. -/
def NewModel {G : Type} (eng : Engine G) (env : Env) (keys : keyMap) (lastID : Int)
    (inp : Input) : Except String (World G) :=
  match eng.NewGame inp.level inp.maxLevel with
  | Except.error e => Except.error ("failed to create marathon game: " ++ e)
  | Except.ok game =>
    let t := stopwatch.NewWithInterval lastID Millisecond
    let f := stopwatch.NewWithInterval t.2 (eng.DefaultTime game)
    match env.GetConfig with
    | Except.error e => Except.error ("failed to load config: " ++ e)
    | Except.ok styles =>
      Except.ok
        { lastID := f.2
          m :=
            { styles :=
                if inp.isFullscreen then { fullscreenWidth := 0, fullscreenHeight := 0 }
                else styles
              helpShowAll := false
              keys := keys
              timer := t.1
              isFullscreen := inp.isFullscreen
              paused := false
              fallStopwatch := f.1
              gameOverStopwatch := stopwatch.zero
              game := game } }

/-- Model.Init: start the fall clock and the session clock. -/
def Model.Init {G : Type} (m : Model G) : Cmd :=
  Cmd.Batch [m.fallStopwatch.Init, m.timer.Init]

/-- The first switch of Update ("operations that can be performed all the time").
`Sum.inl` is an early return, `Sum.inr` falls through to the pause/game-over test. -/
def Model.alwaysOps {G : Type} (eng : Engine G) (env : Env) (m : Model G)
    (cmds : List TimerCmd) : Msg → (Model G × Cmd) ⊕ (Model G × List TimerCmd)
  | Msg.KeyMsg k =>
    if Matches k m.keys Action.Quit then Sum.inl (m, Cmd.Quit)
    else if Matches k m.keys Action.Pause then
      if eng.IsGameOver m.game then Sum.inr (m, cmds)
      else
        Sum.inr ({ m with paused := !m.paused },
          cmds ++ [m.timer.Toggle] ++ [m.fallStopwatch.Toggle])
    else if Matches k m.keys Action.Help then
      Sum.inr ({ m with helpShowAll := !m.helpShowAll }, cmds)
    else Sum.inr (m, cmds)
  | Msg.WindowSizeMsg Width Height =>
    Sum.inr ({ m with styles := { fullscreenWidth := Width, fullscreenHeight := Height } },
      cmds)
  | Msg.TickMsg ID =>
    if m.gameOverStopwatch.ID ≠ ID then Sum.inr (m, cmds)
    else Sum.inl (m, Cmd.Quit)
  | Msg.SwitchModeMsg Target =>
    if Target = env.MODE_MENU then Sum.inl (m, Cmd.Quit)
    else Sum.inr (m, cmds)
  | _ => Sum.inr (m, cmds)

/-- The second switch of Update ("operations that can be performed when the game is not
paused").  An engine error is a panic: no state and no command are returned. -/
def Model.gameplayOps {G : Type} (eng : Engine G) (w : World G) (cmds : List TimerCmd) :
    Msg → Except String (World G × Cmd)
  | Msg.KeyMsg k =>
    if Matches k w.m.keys Action.Left then
      match eng.MoveLeft w.m.game with
      | Except.error e => Except.error ("failed to move tetrimino left: " ++ e)
      | Except.ok g => Except.ok ({ w with m := { w.m with game := g } }, Cmd.Batch cmds)
    else if Matches k w.m.keys Action.Right then
      match eng.MoveRight w.m.game with
      | Except.error e => Except.error ("failed to move tetrimino right: " ++ e)
      | Except.ok g => Except.ok ({ w with m := { w.m with game := g } }, Cmd.Batch cmds)
    else if Matches k w.m.keys Action.Clockwise then
      match eng.Rotate true w.m.game with
      | Except.error e => Except.error ("failed to rotate tetrimino clockwise: " ++ e)
      | Except.ok g => Except.ok ({ w with m := { w.m with game := g } }, Cmd.Batch cmds)
    else if Matches k w.m.keys Action.CounterClockwise then
      match eng.Rotate false w.m.game with
      | Except.error e =>
        Except.error ("failed to rotate tetrimino counter-clockwise: " ++ e)
      | Except.ok g => Except.ok ({ w with m := { w.m with game := g } }, Cmd.Batch cmds)
    else if Matches k w.m.keys Action.HardDrop then
      match eng.HardDrop w.m.game with
      | Except.error e => Except.error ("failed to hard drop: " ++ e)
      | Except.ok r =>
        Except.ok ({ w with m := { w.m with game := r.2 } },
          Cmd.Batch (cmds ++ [w.m.fallStopwatch.Reset]))
    else if Matches k w.m.keys Action.SoftDrop then
      let r := eng.ToggleSoftDrop w.m.game
      Except.ok
        ({ w with
            m := { w.m with
                    fallStopwatch := { w.m.fallStopwatch with Interval := r.1 }
                    game := r.2 } },
         Cmd.Batch cmds)
    else if Matches k w.m.keys Action.Hold then
      match eng.Hold w.m.game with
      | Except.error e => Except.error ("failed to hold tetrimino: " ++ e)
      | Except.ok g => Except.ok ({ w with m := { w.m with game := g } }, Cmd.Batch cmds)
    else Except.ok (w, Cmd.Batch cmds)
  | Msg.TickMsg ID =>
    if w.m.fallStopwatch.ID ≠ ID then Except.ok (w, Cmd.Batch cmds)
    else
      match eng.TickLower w.m.game with
      | Except.error e => Except.error ("failed to lower tetrimino (tick): " ++ e)
      | Except.ok r =>
        if r.1 && eng.IsGameOver r.2 then
          let n := stopwatch.NewWithInterval w.lastID (Second * 5)
          Except.ok
            ({ lastID := n.2
               m := { w.m with game := r.2, gameOverStopwatch := n.1 } },
             Cmd.Batch
               (cmds ++ [w.m.timer.Toggle] ++ [w.m.fallStopwatch.Toggle] ++ [n.1.Start]))
        else Except.ok ({ w with m := { w.m with game := r.2 } }, Cmd.Batch cmds)
  | _ => Except.ok (w, Cmd.Batch cmds)

/-- Model.Update: both clocks see the message first; then the always-allowed operations;
then, unless the session is paused or the game is over, the gameplay operations. -/
def Model.Update {G : Type} (eng : Engine G) (env : Env) (w : World G) (msg : Msg) :
    Except String (World G × Cmd) :=
  let t := w.m.timer.Update msg
  let f := w.m.fallStopwatch.Update msg
  let m1 : Model G := { w.m with timer := t.1, fallStopwatch := f.1 }
  match Model.alwaysOps eng env m1 [t.2, f.2] msg with
  | Sum.inl r => Except.ok ({ w with m := r.1 }, r.2)
  | Sum.inr r =>
    if r.1.paused || eng.IsGameOver r.1.game then
      Except.ok ({ w with m := r.1 }, Cmd.Batch r.2)
    else Model.gameplayOps eng { w with m := r.1 } r.2 msg

/-! ## Sessions -/

/-- The states a session passes through: NewModel (called while the identity counter is
within the int64 range with room for the three stopwatches of a session), followed by any
sequence of messages handled by Update without a panic. -/
inductive Reachable {G : Type} (eng : Engine G) (env : Env) : World G → Prop
  | fresh (keys : keyMap) (lastID : Int) (inp : Input) (w : World G) :
      0 ≤ lastID → lastID + 3 < 9223372036854775808 →
      NewModel eng env keys lastID inp = Except.ok w → Reachable eng env w
  | step (w : World G) (msg : Msg) (w' : World G) (c : Cmd) :
      Reachable eng env w → Model.Update eng env w msg = Except.ok (w', c) →
      Reachable eng env w'

/-- Running: not paused, engine not game over. -/
def Model.isRunning {G : Type} (eng : Engine G) (m : Model G) : Bool :=
  !m.paused && !eng.IsGameOver m.game

/-- Whether an end-delay stopwatch has been created: the field no longer holds the
identity of the zero value. -/
def Model.endDelayCreated {G : Type} (m : Model G) : Bool :=
  decide (m.gameOverStopwatch.ID ≠ 0)

/-- Finished: the engine is game over and the end-delay stopwatch has been created. -/
def Model.isFinished {G : Type} (eng : Engine G) (m : Model G) : Bool :=
  eng.IsGameOver m.game && m.endDelayCreated

/-- The identities of the timers the controller holds: the session clock, the fall clock,
and the end-delay stopwatch once it has been created. -/
def Model.liveIDs {G : Type} (m : Model G) : List Int :=
  [m.timer.ID, m.fallStopwatch.ID] ++
    (if m.endDelayCreated then [m.gameOverStopwatch.ID] else [])

/-! ## Applying commands

Update only returns commands; the clocks change when the runtime executes a command and
hands the resulting message back to Update. -/

/-- Modelled from the spec: the message a stopwatch command hands back at once when the
runtime executes it (section 9: "an explicit effect list returned from each transition,
applied by the caller").  A start marks the stopwatch running, a stop marks it stopped, a
reset clears it; a scheduled tick arrives only after its interval and is not part of
this. -/
def TimerCmd.msgs : TimerCmd → List Msg
  | TimerCmd.none => []
  | TimerCmd.start id _ => [Msg.StartStopMsg id true]
  | TimerCmd.stop id => [Msg.StartStopMsg id false]
  | TimerCmd.reset id => [Msg.ResetMsg id]
  | TimerCmd.tick _ _ => []

/-- The messages a returned command hands back at once. -/
def Cmd.msgs : Cmd → List Msg
  | Cmd.Quit => []
  | Cmd.Batch cmds => (cmds.map TimerCmd.msgs).flatten

/-- Hand a list of messages to Update, one after the other. -/
def Model.deliver {G : Type} (eng : Engine G) (env : Env) (w : World G) :
    List Msg → Except String (World G)
  | [] => Except.ok w
  | msg :: rest =>
    match Model.Update eng env w msg with
    | Except.error e => Except.error e
    | Except.ok r => Model.deliver eng env r.1 rest

/-- Handle one event and apply the commands it returns before the next event. -/
def Model.handle {G : Type} (eng : Engine G) (env : Env) (w : World G) (msg : Msg) :
    Except String (World G) :=
  match Model.Update eng env w msg with
  | Except.error e => Except.error e
  | Except.ok r => Model.deliver eng env r.1 r.2.msgs

/-! ## A scripted engine for concrete runs -/

/-- The engine operations that change the engine state. -/
inductive Call
  | MoveLeft
  | MoveRight
  | Rotate (clockwise : Bool)
  | HardDrop
  | ToggleSoftDrop
  | Hold
  | TickLower
deriving DecidableEq, Repr

/-- What the next scripted engine operation does: fail with an error, succeed without a
lock, lock the piece, lock it and advance a level, lock it and end the game, or end the
game without reporting a lock. -/
inductive Outcome
  | fail
  | move
  | lock
  | levelUp
  | gameOver
  | topOut
deriving DecidableEq, Repr

/-- Modelled from the spec: a scripted stand-in for the engine adapter of section 4.3 (the
engine package is not under src/).  It keeps the game-over flag, the soft-drop flag and
the level, takes the outcome of each fallible operation from a script, and records every
operation invoked on it. -/
structure Scripted where
  over : Bool
  soft : Bool
  level : Nat
  script : List Outcome
  log : List Call
deriving DecidableEq, Repr

namespace Scripted

/-- The ambient gravity interval: one second at level 0, shorter at higher levels. -/
def ambient (s : Scripted) : Duration := Second / (Int.ofNat s.level + 1)

/-- The soft-drop interval: a twentieth of the ambient gravity interval. -/
def fast (s : Scripted) : Duration := s.ambient / 20

/-- The fall interval in effect: the soft-drop interval while soft drop is active,
otherwise the ambient gravity interval. -/
def effective (s : Scripted) : Duration := if s.soft then s.fast else s.ambient

/-- Take the next outcome off the script (a plain success once the script is used up)
and record the call. -/
def next (c : Call) (s : Scripted) : Outcome × Scripted :=
  match s.script with
  | [] => (Outcome.move, { s with log := s.log ++ [c] })
  | o :: rest => (o, { s with script := rest, log := s.log ++ [c] })

/-- The state an outcome leaves behind and whether the piece locked. -/
def settle (o : Outcome) (s : Scripted) : Bool × Scripted :=
  match o with
  | Outcome.fail => (false, s)
  | Outcome.move => (false, s)
  | Outcome.lock => (true, s)
  | Outcome.levelUp => (true, { s with level := s.level + 1 })
  | Outcome.gameOver => (true, { s with over := true })
  | Outcome.topOut => (false, { s with over := true })

/-- A movement-like operation: fails when the script says so. -/
def act (c : Call) (s : Scripted) : Except String Scripted :=
  match next c s with
  | (Outcome.fail, _) => Except.error "invalid state"
  | (o, s1) => Except.ok (settle o s1).2

/-- A dropping operation: fails when the script says so, else reports whether it locked. -/
def drop (c : Call) (s : Scripted) : Except String (Bool × Scripted) :=
  match next c s with
  | (Outcome.fail, _) => Except.error "invalid state"
  | (o, s1) => Except.ok (settle o s1)

/-- The scripted engine started with a given script. -/
def engine (script : List Outcome) : Engine Scripted :=
  { NewGame := fun level maxLevel =>
      if maxLevel < level then Except.error "invalid level"
      else Except.ok { over := false, soft := false, level := level, script := script,
                       log := [] }
    DefaultTime := ambient
    IsGameOver := fun s => s.over
    MoveLeft := act Call.MoveLeft
    MoveRight := act Call.MoveRight
    Rotate := fun clockwise => act (Call.Rotate clockwise)
    HardDrop := drop Call.HardDrop
    ToggleSoftDrop := fun s =>
      let s1 : Scripted := { s with soft := !s.soft, log := s.log ++ [Call.ToggleSoftDrop] }
      (s1.effective, s1)
    Hold := act Call.Hold
    TickLower := drop Call.TickLower }

end Scripted

/-- A key map for concrete runs. -/
def sampleKeys : keyMap :=
  { bindings :=
      [("esc", Action.Quit), ("p", Action.Pause), ("?", Action.Help),
       ("left", Action.Left), ("right", Action.Right), ("x", Action.Clockwise),
       ("z", Action.CounterClockwise), ("space", Action.HardDrop),
       ("down", Action.SoftDrop), ("c", Action.Hold)] }

/-- An environment for concrete runs: the menu is mode 0 and the configuration loads. -/
def sampleEnv : Env :=
  { MODE_MENU := 0
    GetConfig := Except.ok { fullscreenWidth := 80, fullscreenHeight := 24 } }

/-- The argument of NewModel in concrete runs. -/
def sampleInput : Input :=
  { isFullscreen := false, level := 0, maxLevel := 15 }

/-- Hand a list of messages to Update one after the other, collecting the returned
commands (unlike `deliver`, which drops them). -/
def Model.run {G : Type} (eng : Engine G) (env : Env) :
    World G → List Msg → Except String (World G × List Cmd)
  | w, [] => Except.ok (w, [])
  | w, msg :: rest =>
    match Model.Update eng env w msg with
    | Except.error e => Except.error e
    | Except.ok r =>
      match Model.run eng env r.1 rest with
      | Except.error e => Except.error e
      | Except.ok r2 => Except.ok (r2.1, r.2 :: r2.2)

/-- A session on the scripted engine: NewModel with the identity counter at 0, then the
given messages. -/
def session (script : List Outcome) (msgs : List Msg) :
    Except String (World Scripted × List Cmd) :=
  match NewModel (Scripted.engine script) sampleEnv sampleKeys 0 sampleInput with
  | Except.error e => Except.error e
  | Except.ok w0 => Model.run (Scripted.engine script) sampleEnv w0 msgs

/-- The state NewModel returns in such a session: session clock 1 and fall clock 2, both
not yet running, no end-delay stopwatch. -/
def freshWorld (script : List Outcome) : World Scripted :=
  { lastID := 2
    m :=
      { styles := { fullscreenWidth := 80, fullscreenHeight := 24 }
        helpShowAll := false
        keys := sampleKeys
        timer := { d := 0, id := 1, running := false, Interval := 1000000 }
        isFullscreen := false
        paused := false
        fallStopwatch := { d := 0, id := 2, running := false, Interval := 1000000000 }
        gameOverStopwatch := stopwatch.zero
        game := { over := false, soft := false, level := 0, script := script, log := [] } } }

/-- The state once the start messages of Init have come back: both clocks running. -/
def startedWorld (script : List Outcome) : World Scripted :=
  { lastID := 2
    m :=
      { styles := { fullscreenWidth := 80, fullscreenHeight := 24 }
        helpShowAll := false
        keys := sampleKeys
        timer := { d := 0, id := 1, running := true, Interval := 1000000 }
        isFullscreen := false
        paused := false
        fallStopwatch := { d := 0, id := 2, running := true, Interval := 1000000000 }
        gameOverStopwatch := stopwatch.zero
        game := { over := false, soft := false, level := 0, script := script, log := [] } } }

/-- The started state after one Pause press whose stop messages have come back: paused,
both clocks stopped. -/
def pausedWorld (script : List Outcome) : World Scripted :=
  { lastID := 2
    m :=
      { styles := { fullscreenWidth := 80, fullscreenHeight := 24 }
        helpShowAll := false
        keys := sampleKeys
        timer := { d := 0, id := 1, running := false, Interval := 1000000 }
        isFullscreen := false
        paused := true
        fallStopwatch := { d := 0, id := 2, running := false, Interval := 1000000000 }
        gameOverStopwatch := stopwatch.zero
        game := { over := false, soft := false, level := 0, script := script, log := [] } } }

/-- A started session in which soft drop was pressed at level 0 and a fall tick then
advanced the engine to level 1: soft drop is held and the fall interval is still the
50 ms set at the press. -/
def softDropHeldWorld : World Scripted :=
  { lastID := 2
    m :=
      { styles := { fullscreenWidth := 80, fullscreenHeight := 24 }
        helpShowAll := false
        keys := sampleKeys
        timer := { d := 0, id := 1, running := true, Interval := 1000000 }
        isFullscreen := false
        paused := false
        fallStopwatch := { d := 50000000, id := 2, running := true, Interval := 50000000 }
        gameOverStopwatch := stopwatch.zero
        game := { over := false, soft := true, level := 1, script := [],
                  log := [Call.ToggleSoftDrop, Call.TickLower] } } }

/-- A started session after the fall tick on which the engine locked the piece and ended
the game: Finished, with the end-delay stopwatch 3 created. -/
def finishedWorld : World Scripted :=
  { lastID := 3
    m :=
      { styles := { fullscreenWidth := 80, fullscreenHeight := 24 }
        helpShowAll := false
        keys := sampleKeys
        timer := { d := 0, id := 1, running := true, Interval := 1000000 }
        isFullscreen := false
        paused := false
        fallStopwatch :=
          { d := 1000000000, id := 2, running := true, Interval := 1000000000 }
        gameOverStopwatch := { d := 0, id := 3, running := false, Interval := 5000000000 }
        game := { over := true, soft := false, level := 0, script := [],
                  log := [Call.TickLower] } } }

/-- Whether a stopwatch command carries a non-zero identity (the nil command carries
none). -/
def TimerCmd.idNonzero : TimerCmd → Bool
  | TimerCmd.none => true
  | TimerCmd.start id _ => decide (id ≠ 0)
  | TimerCmd.stop id => decide (id ≠ 0)
  | TimerCmd.reset id => decide (id ≠ 0)
  | TimerCmd.tick id _ => decide (id ≠ 0)

/-- Whether every stopwatch command in a returned command carries a non-zero identity. -/
def Cmd.idsNonzero : Cmd → Bool
  | Cmd.Quit => true
  | Cmd.Batch cmds => cmds.all TimerCmd.idNonzero

/-- The messages of a start-up followed by two Pause presses that are both handled before
the stop messages of the first press come back: each press sees the clocks still running
and asks to stop them. -/
def doublePause : List Msg :=
  [Msg.StartStopMsg 1 true, Msg.StartStopMsg 2 true, Msg.KeyMsg "p", Msg.KeyMsg "p",
   Msg.StartStopMsg 1 false, Msg.StartStopMsg 2 false, Msg.StartStopMsg 1 false,
   Msg.StartStopMsg 2 false]

/-! ## Which engine operation an event is forwarded to -/

/-- The engine operation a gameplay action stands for; the always-allowed actions (Quit,
Pause, Help) stand for none. -/
def Action.call : Action → Option Call
  | Action.Left => some Call.MoveLeft
  | Action.Right => some Call.MoveRight
  | Action.Clockwise => some (Call.Rotate true)
  | Action.CounterClockwise => some (Call.Rotate false)
  | Action.HardDrop => some Call.HardDrop
  | Action.SoftDrop => some Call.ToggleSoftDrop
  | Action.Hold => some Call.Hold
  | _ => none

/-- One invocation of an engine operation: the engine state it leaves, or its error. -/
def Engine.invoke {G : Type} (eng : Engine G) : Call → G → Except String G
  | Call.MoveLeft, g => eng.MoveLeft g
  | Call.MoveRight, g => eng.MoveRight g
  | Call.Rotate clockwise, g => eng.Rotate clockwise g
  | Call.HardDrop, g => (eng.HardDrop g).map Prod.snd
  | Call.ToggleSoftDrop, g => Except.ok (eng.ToggleSoftDrop g).2
  | Call.Hold, g => eng.Hold g
  | Call.TickLower, g => (eng.TickLower g).map Prod.snd

/-- The engine operation an event is forwarded to while the session is Running: the
operation of the gameplay action the key is bound to, TickLower for a tick that carries
the fall clock's identity, none for every other event. -/
def Model.forwards {G : Type} (m : Model G) : Msg → Option Call
  | Msg.KeyMsg k => (m.keys.bindings.lookup k).bind Action.call
  | Msg.TickMsg ID => if ID = m.fallStopwatch.ID then some Call.TickLower else none
  | _ => none

/-! ## Invariants of a session -/

section Lemmas

variable {G : Type}

/-- What holds of the three stopwatch identities in every state of a session: the session
clock and the fall clock carry consecutive positive identities, and the end-delay
stopwatch is either still the zero value or carries the next identity, in which case the
engine is game over. -/
structure Inv (eng : Engine G) (w : World G) : Prop where
  timer_pos : 1 ≤ w.m.timer.id
  fall_eq : w.m.fallStopwatch.id = w.m.timer.id + 1
  bound : w.m.timer.id + 2 < 9223372036854775808
  delay : (w.m.gameOverStopwatch.id = 0 ∧ w.lastID = w.m.fallStopwatch.id) ∨
    (w.m.gameOverStopwatch.id = w.m.fallStopwatch.id + 1 ∧
      w.lastID = w.m.fallStopwatch.id + 1 ∧ eng.IsGameOver w.m.game = true)

/-- A value within the int64 range is not changed by the wrap. -/
theorem wrapInt64_eq (x : Int) (h1 : -9223372036854775808 ≤ x)
    (h2 : x < 9223372036854775808) : wrapInt64 x = x := by
  unfold wrapInt64
  omega

/-- A stopwatch keeps its identity whatever message it handles. -/
theorem stopwatch.Update_id (s : stopwatch.Model) (msg : Msg) :
    (s.Update msg).1.id = s.id := by
  cases msg <;> simp only [stopwatch.Model.Update] <;> split <;> rfl

/-- An early return of the first switch returns the state as it is, with the exit
command. -/
theorem alwaysOps_inl (eng : Engine G) (env : Env) (m : Model G) (cmds : List TimerCmd)
    (msg : Msg) (r : Model G × Cmd) (h : Model.alwaysOps eng env m cmds msg = Sum.inl r) :
    r = (m, Cmd.Quit) := by
  cases msg <;> simp only [Model.alwaysOps] at h <;> (try split_ifs at h) <;> simp_all

/-- When the first switch falls through, it has changed neither the stopwatches nor the
engine state nor the key map. -/
theorem alwaysOps_inr (eng : Engine G) (env : Env) (m : Model G) (cmds : List TimerCmd)
    (msg : Msg) (r : Model G × List TimerCmd)
    (h : Model.alwaysOps eng env m cmds msg = Sum.inr r) :
    r.1.timer = m.timer ∧ r.1.fallStopwatch = m.fallStopwatch ∧
      r.1.gameOverStopwatch = m.gameOverStopwatch ∧ r.1.game = m.game ∧
      r.1.keys = m.keys := by
  cases msg <;> simp only [Model.alwaysOps] at h <;> (try split_ifs at h) <;>
    simp only [Sum.inr.injEq, reduceCtorEq] at h <;> subst h <;> simp

/-- What the second switch keeps: the session clock, the fall clock's identity, the key
map and the paused flag; the end-delay stopwatch is kept, or created with the engine
game over. -/
theorem gameplayOps_frame (eng : Engine G) (w w' : World G) (cmds : List TimerCmd)
    (msg : Msg) (c : Cmd) (h : Model.gameplayOps eng w cmds msg = Except.ok (w', c)) :
    w'.m.timer = w.m.timer ∧ w'.m.fallStopwatch.id = w.m.fallStopwatch.id ∧
    w'.m.keys = w.m.keys ∧ w'.m.paused = w.m.paused ∧
    ((w'.m.gameOverStopwatch = w.m.gameOverStopwatch ∧ w'.lastID = w.lastID) ∨
      (w'.m.gameOverStopwatch = (stopwatch.NewWithInterval w.lastID (Second * 5)).1 ∧
        w'.lastID = (stopwatch.NewWithInterval w.lastID (Second * 5)).2 ∧
        eng.IsGameOver w'.m.game = true)) := by
  cases msg <;> simp only [Model.gameplayOps] at h <;> (repeat' split at h) <;>
    simp only [Except.ok.injEq, Prod.mk.injEq, reduceCtorEq] at h <;>
    (try obtain ⟨h1, h2⟩ := h) <;> (try subst h1) <;> simp_all

/-- One Update keeps the identities of the two clocks and the key map; it either keeps
the end-delay stopwatch and the identity counter (and, when the game is over, the
engine state), or the game was not over before and it creates the end-delay stopwatch
with the engine game over afterwards. -/
theorem Update_frame (eng : Engine G) (env : Env) (w w' : World G) (msg : Msg) (c : Cmd)
    (h : Model.Update eng env w msg = Except.ok (w', c)) :
    w'.m.timer.id = w.m.timer.id ∧ w'.m.fallStopwatch.id = w.m.fallStopwatch.id ∧
    w'.m.keys = w.m.keys ∧
    ((w'.m.gameOverStopwatch = w.m.gameOverStopwatch ∧ w'.lastID = w.lastID ∧
        (eng.IsGameOver w.m.game = true → w'.m.game = w.m.game)) ∨
      (eng.IsGameOver w.m.game = false ∧
        w'.m.gameOverStopwatch = (stopwatch.NewWithInterval w.lastID (Second * 5)).1 ∧
        w'.lastID = (stopwatch.NewWithInterval w.lastID (Second * 5)).2 ∧
        eng.IsGameOver w'.m.game = true)) := by
  have ht := stopwatch.Update_id w.m.timer msg
  have hf := stopwatch.Update_id w.m.fallStopwatch msg
  unfold Model.Update at h
  simp only at h
  split at h
  · rename_i r hr
    have hq := alwaysOps_inl _ _ _ _ _ _ hr
    subst hq
    simp only [Except.ok.injEq, Prod.mk.injEq] at h
    obtain ⟨h1, -⟩ := h
    subst h1
    simp [ht, hf]
  · rename_i r hr
    obtain ⟨a1, a2, a3, a4, a5⟩ := alwaysOps_inr _ _ _ _ _ _ hr
    simp only at a1 a2 a3 a4 a5
    split at h
    · simp only [Except.ok.injEq, Prod.mk.injEq] at h
      obtain ⟨h1, -⟩ := h
      subst h1
      simp [a1, a2, a3, a4, a5, ht, hf]
    · rename_i hrun
      simp only [Bool.or_eq_true, not_or, Bool.not_eq_true] at hrun
      obtain ⟨g1, g2, g3, -, g5⟩ := gameplayOps_frame _ _ _ _ _ _ h
      simp only at g1 g2 g3 g5
      refine ⟨by rw [g1, a1, ht], by rw [g2, a2, hf], by rw [g3, a5], ?_⟩
      rw [a4] at hrun
      rcases g5 with ⟨g5, g6⟩ | ⟨g5, g6, g7⟩
      · left
        exact ⟨by rw [g5, a3], g6, by simp [hrun.2]⟩
      · right
        exact ⟨hrun.2, g5, g6, g7⟩

/-- The invariant holds right after NewModel. -/
theorem Inv_NewModel (eng : Engine G) (env : Env) (keys : keyMap) (lastID : Int)
    (inp : Input) (w : World G) (h0 : 0 ≤ lastID) (h1 : lastID + 3 < 9223372036854775808)
    (h : NewModel eng env keys lastID inp = Except.ok w) : Inv eng w := by
  have e1 : wrapInt64 (lastID + 1) = lastID + 1 := wrapInt64_eq _ (by omega) (by omega)
  have e2 : wrapInt64 (lastID + 1 + 1) = lastID + 1 + 1 :=
    wrapInt64_eq _ (by omega) (by omega)
  unfold NewModel at h
  split at h
  · simp at h
  · simp only at h
    split at h
    · simp at h
    · simp only [Except.ok.injEq] at h
      subst h
      constructor <;> simp [stopwatch.NewWithInterval, stopwatch.zero, e1, e2] <;> omega

/-- The invariant is kept by every Update that returns. -/
theorem Inv_step (eng : Engine G) (env : Env) (w w' : World G) (msg : Msg) (c : Cmd)
    (hi : Inv eng w) (h : Model.Update eng env w msg = Except.ok (w', c)) : Inv eng w' := by
  obtain ⟨f1, f2, -, f4⟩ := Update_frame eng env w w' msg c h
  obtain ⟨i1, i2, i3, i4⟩ := hi
  rcases f4 with ⟨g1, g2, g3⟩ | ⟨g1, g2, g3, g4⟩
  · refine ⟨by omega, by omega, by omega, ?_⟩
    rw [g1, g2, f2]
    rcases i4 with i4 | ⟨i4, i5, i6⟩
    · exact Or.inl i4
    · exact Or.inr ⟨i4, i5, by rw [g3 i6]; exact i6⟩
  · refine ⟨by omega, by omega, by omega, ?_⟩
    rcases i4 with ⟨-, i5⟩ | ⟨-, -, i6⟩
    · right
      have e : wrapInt64 (w.lastID + 1) = w.lastID + 1 :=
        wrapInt64_eq _ (by omega) (by omega)
      rw [g2, g3, f2]
      simp only [stopwatch.NewWithInterval, e]
      exact ⟨by omega, by omega, g4⟩
    · rw [i6] at g1
      exact absurd g1 (by simp)

/-- Every state of a session satisfies the invariant. -/
theorem Reachable.inv (eng : Engine G) (env : Env) (w : World G)
    (h : Reachable eng env w) : Inv eng w := by
  induction h with
  | fresh keys lastID inp w h0 h1 h => exact Inv_NewModel eng env keys lastID inp w h0 h1 h
  | step w msg w' c _ h ih => exact Inv_step eng env w w' msg c ih h

/-- Messages handled one after the other lead from a session state to a session state. -/
theorem run_reachable (eng : Engine G) (env : Env) (msgs : List Msg) :
    ∀ (w w' : World G), Reachable eng env w →
      (Model.run eng env w msgs).map Prod.fst = Except.ok w' → Reachable eng env w' := by
  induction msgs with
  | nil =>
    intro w w' hw h
    simp only [Model.run, Except.map, Except.ok.injEq] at h
    exact h ▸ hw
  | cons msg rest ih =>
    intro w w' hw h
    simp only [Model.run] at h
    cases hu : Model.Update eng env w msg with
    | error e => simp [hu, Except.map] at h
    | ok r =>
      have hr : Reachable eng env r.1 := Reachable.step w msg r.1 r.2 hw hu
      apply ih r.1 w' hr
      cases hrun : Model.run eng env r.1 rest with
      | error e => simp [hu, hrun, Except.map] at h
      | ok r2 =>
        simp only [hu, hrun, Except.map, Except.ok.injEq] at h
        simp [Except.map, h]

/-- The states of a session on the scripted engine are session states. -/
theorem session_reachable (script : List Outcome) (msgs : List Msg) (w : World Scripted)
    (h : (session script msgs).map Prod.fst = Except.ok w) :
    Reachable (Scripted.engine script) sampleEnv w := by
  unfold session at h
  cases hn : NewModel (Scripted.engine script) sampleEnv sampleKeys 0 sampleInput with
  | error e => simp [hn, Except.map] at h
  | ok w0 =>
    simp only [hn] at h
    exact run_reachable _ _ msgs w0 w
      (Reachable.fresh sampleKeys 0 sampleInput w0 (by decide) (by decide) hn) h

/-- Init returns the start commands of the fall clock and the session clock; once their
messages have come back to Update, both clocks are running. -/
theorem Init_starts_both_clocks :
    (freshWorld []).m.Init =
        Cmd.Batch [TimerCmd.start 2 1000000000, TimerCmd.start 1 1000000] ∧
      Model.deliver (Scripted.engine []) sampleEnv (freshWorld [])
        (freshWorld []).m.Init.msgs = Except.ok (startedWorld []) :=
  ⟨rfl, rfl⟩

/-- A tick whose identity differs from the identities held in the three stopwatch fields
leaves the whole state as it is and returns only the two empty clock commands. -/
theorem stale_tick_discarded (eng : Engine G) (env : Env) (w : World G) (ID : Int)
    (h1 : ID ≠ w.m.timer.ID) (h2 : ID ≠ w.m.fallStopwatch.ID)
    (h3 : ID ≠ w.m.gameOverStopwatch.ID) :
    Model.Update eng env w (Msg.TickMsg ID) =
      Except.ok (w, Cmd.Batch [TimerCmd.none, TimerCmd.none]) := by
  obtain ⟨lastID, ⟨styles, help, keys, timer, fs, paused, fall, go, game⟩⟩ := w
  simp only [stopwatch.Model.ID] at h1 h2 h3
  cases paused <;> cases ho : eng.IsGameOver game <;>
    simp [Model.Update, Model.alwaysOps, Model.gameplayOps, stopwatch.Model.Update,
      stopwatch.Model.ID, h1, h2, Ne.symm h2, Ne.symm h3, ho]

/-- A tick makes Update return the exit command exactly when its identity is the one held
in the end-delay stopwatch field. -/
theorem tick_quit_iff (eng : Engine G) (env : Env) (w : World G) (ID : Int) :
    (∃ w', Model.Update eng env w (Msg.TickMsg ID) = Except.ok (w', Cmd.Quit)) ↔
      ID = w.m.gameOverStopwatch.ID := by
  obtain ⟨lastID, ⟨styles, help, keys, timer, fs, paused, fall, go, game⟩⟩ := w
  by_cases h : go.id = ID
  · simp [Model.Update, Model.alwaysOps, stopwatch.Model.ID, h]
  · simp only [stopwatch.Model.ID, Ne.symm h, iff_false, not_exists]
    intro w' hq
    simp only [Model.Update, Model.alwaysOps, stopwatch.Model.ID, ne_eq, h, not_false_eq_true,
      if_true] at hq
    split at hq
    · simp at hq
    · simp only [Model.gameplayOps] at hq
      repeat' split at hq
      all_goals simp at hq

/-- In a session, a tick with a non-zero identity returns the exit command exactly when
the session is Finished and the identity is the end-delay stopwatch's. -/
theorem tick_quit_iff_finished (eng : Engine G) (env : Env) (w : World G) (ID : Int)
    (hw : Reachable eng env w) (h0 : ID ≠ 0) :
    (∃ w', Model.Update eng env w (Msg.TickMsg ID) = Except.ok (w', Cmd.Quit)) ↔
      (w.m.isFinished eng = true ∧ ID = w.m.gameOverStopwatch.ID) := by
  rw [tick_quit_iff]
  obtain ⟨-, -, -, i4⟩ := Reachable.inv eng env w hw
  constructor
  · intro h
    refine ⟨?_, h⟩
    simp only [stopwatch.Model.ID] at h
    rcases i4 with ⟨i4, -⟩ | ⟨-, -, i6⟩
    · omega
    · simp only [Model.isFinished, Model.endDelayCreated, stopwatch.Model.ID, i6,
        Bool.true_and, decide_eq_true_eq]
      omega
  · exact fun h => h.2

/-- In a session, once the end-delay stopwatch has been created no later Update replaces
it or creates another stopwatch. -/
theorem endDelay_created_once (eng : Engine G) (env : Env) (w w' : World G) (msg : Msg)
    (c : Cmd) (hw : Reachable eng env w) (hc : w.m.endDelayCreated = true)
    (h : Model.Update eng env w msg = Except.ok (w', c)) :
    w'.m.gameOverStopwatch = w.m.gameOverStopwatch ∧ w'.lastID = w.lastID := by
  obtain ⟨-, -, -, i4⟩ := Reachable.inv eng env w hw
  obtain ⟨-, -, -, f4⟩ := Update_frame eng env w w' msg c h
  simp only [Model.endDelayCreated, stopwatch.Model.ID, decide_eq_true_eq] at hc
  rcases f4 with ⟨g1, g2, -⟩ | ⟨g1, -⟩
  · exact ⟨g1, g2⟩
  · rcases i4 with ⟨i4, -⟩ | ⟨-, -, i6⟩
    · exact absurd i4 hc
    · rw [i6] at g1
      exact absurd g1 (by simp)

/-- NewModel gives the fall clock the engine's ambient gravity interval and leaves both
clocks stopped and the end-delay stopwatch at its zero value. -/
theorem NewModel_fall_interval (eng : Engine G) (env : Env) (keys : keyMap) (lastID : Int)
    (inp : Input) (w : World G) (h : NewModel eng env keys lastID inp = Except.ok w) :
    w.m.fallStopwatch.Interval = eng.DefaultTime w.m.game ∧
      w.m.timer.Running = false ∧ w.m.fallStopwatch.Running = false ∧
      w.m.gameOverStopwatch = stopwatch.zero ∧ w.m.paused = false := by
  unfold NewModel at h
  split at h
  · simp at h
  · simp only at h
    split at h
    · simp at h
    · simp only [Except.ok.injEq] at h
      subst h
      simp [stopwatch.NewWithInterval, stopwatch.Model.Running]

/-- A stopwatch keeps its interval whatever message it handles. -/
theorem stopwatch.Update_Interval (s : stopwatch.Model) (msg : Msg) :
    (s.Update msg).1.Interval = s.Interval := by
  cases msg <;> simp only [stopwatch.Model.Update] <;> split <;> rfl

/-- The second switch changes the fall clock's interval on a SoftDrop key only. -/
theorem gameplayOps_interval (eng : Engine G) (w w' : World G) (cmds : List TimerCmd)
    (msg : Msg) (c : Cmd) (h : Model.gameplayOps eng w cmds msg = Except.ok (w', c)) :
    w'.m.fallStopwatch.Interval = w.m.fallStopwatch.Interval ∨
      ∃ k, msg = Msg.KeyMsg k ∧ w.m.keys.bindings.lookup k = some Action.SoftDrop := by
  cases msg with
  | KeyMsg k =>
    by_cases hs : w.m.keys.bindings.lookup k = some Action.SoftDrop
    · exact Or.inr ⟨k, rfl, hs⟩
    · left
      simp only [Model.gameplayOps, Matches, hs, beq_iff_eq] at h
      repeat' split at h
      all_goals simp only [Except.ok.injEq, Prod.mk.injEq, reduceCtorEq] at h
      all_goals (obtain ⟨h1, -⟩ := h; subst h1; first | rfl | contradiction)
  | TickMsg ID =>
    left
    simp only [Model.gameplayOps] at h
    repeat' split at h
    all_goals simp only [Except.ok.injEq, Prod.mk.injEq, reduceCtorEq] at h
    all_goals (obtain ⟨h1, -⟩ := h; subst h1; rfl)
  | WindowSizeMsg _ _ | StartStopMsg _ _ | ResetMsg _ | SwitchModeMsg _ | other =>
    left
    simp only [Model.gameplayOps, Except.ok.injEq, Prod.mk.injEq] at h
    obtain ⟨h1, -⟩ := h
    subst h1
    rfl

/-- Update assigns the fall clock's interval only while handling a SoftDrop key in a
Running state: every other Update that returns leaves the interval as it was, whatever
the engine's gravity has become. -/
theorem fall_interval_set_by_soft_drop_only (eng : Engine G) (env : Env) (w w' : World G)
    (msg : Msg) (c : Cmd) (h : Model.Update eng env w msg = Except.ok (w', c))
    (hne : w'.m.fallStopwatch.Interval ≠ w.m.fallStopwatch.Interval) :
    w.m.isRunning eng = true ∧
      ∃ k, msg = Msg.KeyMsg k ∧ w.m.keys.bindings.lookup k = some Action.SoftDrop := by
  have hf := stopwatch.Update_Interval w.m.fallStopwatch msg
  unfold Model.Update at h
  simp only at h
  split at h
  · rename_i r hr
    have hq := alwaysOps_inl _ _ _ _ _ _ hr
    subst hq
    simp only [Except.ok.injEq, Prod.mk.injEq] at h
    obtain ⟨h1, -⟩ := h
    subst h1
    exact absurd hf hne
  · rename_i r hr
    obtain ⟨-, a2, -, a4, a5⟩ := alwaysOps_inr _ _ _ _ _ _ hr
    simp only at a2 a4 a5
    split at h
    · simp only [Except.ok.injEq, Prod.mk.injEq] at h
      obtain ⟨h1, -⟩ := h
      subst h1
      simp only [a2] at hne
      exact absurd hf hne
    · rename_i hrun
      simp only [Bool.or_eq_true, not_or, Bool.not_eq_true] at hrun
      rcases gameplayOps_interval _ _ _ _ _ _ h with g | ⟨k, g1, g2⟩
      · simp only [a2] at g
        rw [g, hf] at hne
        exact absurd rfl hne
      · simp only [a5] at g2
        subst g1
        have hp : r.1.paused = w.m.paused := by
          simp only [Model.alwaysOps, Matches, g2] at hr
          simp at hr
          rw [← hr]
        simp only [Model.isRunning, ← hp, ← a4, hrun.1, hrun.2, Bool.not_false,
          Bool.and_self, true_and]
        exact ⟨k, rfl, g2⟩

/-- Handling a SoftDrop key in a Running state: the engine's ToggleSoftDrop is called, the
fall clock's interval becomes the value it returns, nothing else changes. -/
theorem Update_soft_drop (eng : Engine G) (env : Env) (w : World G) (k : String)
    (hk : w.m.keys.bindings.lookup k = some Action.SoftDrop)
    (hr : w.m.isRunning eng = true) :
    Model.Update eng env w (Msg.KeyMsg k) =
      Except.ok
        ({ w with
            m := { w.m with
                    fallStopwatch :=
                      { w.m.fallStopwatch with Interval := (eng.ToggleSoftDrop w.m.game).1 }
                    game := (eng.ToggleSoftDrop w.m.game).2 } },
         Cmd.Batch [TimerCmd.none, TimerCmd.none]) := by
  obtain ⟨lastID, ⟨styles, help, keys, timer, fs, paused, fall, go, game⟩⟩ := w
  simp only [Model.isRunning, Bool.and_eq_true, Bool.not_eq_true'] at hr
  obtain ⟨hp, ho⟩ := hr
  simp only at hp ho hk
  subst hp
  simp [Model.Update, Model.alwaysOps, Model.gameplayOps, stopwatch.Model.Update,
    Matches, hk, ho]

/-- The command a stopwatch returns from its own Update carries the stopwatch's
identity. -/
theorem stopwatch.Update_cmd_idNonzero (s : stopwatch.Model) (msg : Msg) (h : s.id ≠ 0) :
    (s.Update msg).2.idNonzero = true := by
  cases msg <;> simp only [stopwatch.Model.Update] <;> (try split) <;>
    simp [TimerCmd.idNonzero, h]

/-- The toggle, reset and start commands of a stopwatch carry its identity. -/
theorem stopwatch.cmds_idNonzero (s : stopwatch.Model) (h : s.id ≠ 0) :
    s.Toggle.idNonzero = true ∧ s.Reset.idNonzero = true ∧ s.Start.idNonzero = true := by
  refine ⟨?_, ?_, ?_⟩
  · unfold stopwatch.Model.Toggle
    split <;> simp [stopwatch.Model.Stop, stopwatch.Model.Start, TimerCmd.idNonzero, h]
  · simp [stopwatch.Model.Reset, TimerCmd.idNonzero, h]
  · simp [stopwatch.Model.Start, TimerCmd.idNonzero, h]

/-- When the first switch falls through, it has appended nothing or the toggles of the
two clocks to the commands. -/
theorem alwaysOps_cmds (eng : Engine G) (env : Env) (m : Model G) (cmds : List TimerCmd)
    (msg : Msg) (r : Model G × List TimerCmd)
    (h : Model.alwaysOps eng env m cmds msg = Sum.inr r) :
    r.2 = cmds ∨ r.2 = cmds ++ [m.timer.Toggle] ++ [m.fallStopwatch.Toggle] := by
  cases msg <;> simp only [Model.alwaysOps] at h <;> (try split_ifs at h) <;>
    simp only [Sum.inr.injEq, reduceCtorEq] at h <;> subst h <;> simp

/-- The second switch appends nothing, the reset of the fall clock, or the toggles of the
two clocks followed by the start of a new stopwatch. -/
theorem gameplayOps_cmds (eng : Engine G) (w w' : World G) (cmds : List TimerCmd)
    (msg : Msg) (c : Cmd) (h : Model.gameplayOps eng w cmds msg = Except.ok (w', c)) :
    c = Cmd.Batch cmds ∨ c = Cmd.Batch (cmds ++ [w.m.fallStopwatch.Reset]) ∨
      c = Cmd.Batch (cmds ++ [w.m.timer.Toggle] ++ [w.m.fallStopwatch.Toggle] ++
        [(stopwatch.NewWithInterval w.lastID (Second * 5)).1.Start]) := by
  cases msg <;> simp only [Model.gameplayOps] at h <;> (repeat' split at h) <;>
    simp only [Except.ok.injEq, Prod.mk.injEq, reduceCtorEq] at h <;>
    (try obtain ⟨-, h2⟩ := h) <;> (try subst h2) <;> simp_all

/-- No command of a session carries the identity 0: in every session state, whatever
message Update handles, each stopwatch command it returns (the clocks' own next-tick
commands, the toggles, the reset, the start of the end-delay stopwatch) carries a
non-zero identity.  Ticks are sent in answer to these commands only, so the stopwatches of
a session send no tick with identity 0. -/
theorem session_commands_idsNonzero (eng : Engine G) (env : Env) (w w' : World G)
    (msg : Msg) (c : Cmd) (hw : Reachable eng env w)
    (h : Model.Update eng env w msg = Except.ok (w', c)) : c.idsNonzero = true := by
  obtain ⟨i1, i2, i3, i4⟩ := Reachable.inv eng env w hw
  have ht0 : w.m.timer.id ≠ 0 := by omega
  have hf0 : w.m.fallStopwatch.id ≠ 0 := by omega
  have ht := stopwatch.Update_id w.m.timer msg
  have hf := stopwatch.Update_id w.m.fallStopwatch msg
  have ht1 : (w.m.timer.Update msg).1.id ≠ 0 := by rw [ht]; exact ht0
  have hf1 : (w.m.fallStopwatch.Update msg).1.id ≠ 0 := by rw [hf]; exact hf0
  have c1 := stopwatch.Update_cmd_idNonzero w.m.timer msg ht0
  have c2 := stopwatch.Update_cmd_idNonzero w.m.fallStopwatch msg hf0
  obtain ⟨t1, -, -⟩ := stopwatch.cmds_idNonzero _ ht1
  obtain ⟨f1, f2, -⟩ := stopwatch.cmds_idNonzero _ hf1
  have hn : eng.IsGameOver w.m.game = false →
      (stopwatch.NewWithInterval w.lastID (Second * 5)).1.Start.idNonzero = true := by
    intro ho
    rw [ho] at i4
    simp only [Bool.false_eq_true, and_false, or_false] at i4
    obtain ⟨-, i5⟩ := i4
    have e : wrapInt64 (w.lastID + 1) = w.lastID + 1 :=
      wrapInt64_eq _ (by omega) (by omega)
    simp only [stopwatch.NewWithInterval, stopwatch.Model.Start, TimerCmd.idNonzero, e,
      decide_eq_true_eq]
    omega
  have hbase : ([(w.m.timer.Update msg).2, (w.m.fallStopwatch.Update msg).2] :
      List TimerCmd).all TimerCmd.idNonzero = true := by
    simp [c1, c2]
  unfold Model.Update at h
  simp only at h
  split at h
  · rename_i r hr
    have hq := alwaysOps_inl _ _ _ _ _ _ hr
    subst hq
    simp only [Except.ok.injEq, Prod.mk.injEq] at h
    obtain ⟨-, h2⟩ := h
    subst h2
    rfl
  · rename_i r hr
    obtain ⟨a1, a2, -, a4, -⟩ := alwaysOps_inr _ _ _ _ _ _ hr
    simp only at a1 a2 a4
    have hc := alwaysOps_cmds _ _ _ _ _ _ hr
    simp only at hc
    have hr2 : r.2.all TimerCmd.idNonzero = true := by
      rcases hc with hc | hc <;> rw [hc] <;> simp [c1, c2, t1, f1]
    split at h
    · simp only [Except.ok.injEq, Prod.mk.injEq] at h
      obtain ⟨-, h2⟩ := h
      subst h2
      exact hr2
    · rename_i hrun
      simp only [Bool.or_eq_true, not_or, Bool.not_eq_true] at hrun
      rw [a4] at hrun
      have hn' := hn hrun.2
      rcases gameplayOps_cmds _ _ _ _ _ _ h with g | g | g <;> subst g <;>
        simp only [Cmd.idsNonzero, List.all_append, hr2, Bool.true_and, List.all_cons,
          List.all_nil, Bool.and_true, a1, a2, t1, f1, f2, hn']

end Lemmas

/-! ## The claims -/

section Claims

variable {G : Type}

/-- Claim C1: stale ticks are discarded.  A stopwatch tick carries the identity of the
stopwatch that sent it, and the stopwatches of a session carry non-zero identities (see
`session_commands_idsNonzero`).  For every controller state (Running, Paused or Finished)
and every such tick whose identity matches none of the timers the controller considers
live (the session clock, the fall clock, and the end-delay stopwatch if one has been
created), Update returns the state exactly as it was: the paused flag, the engine state
(so no engine operation such as TickLower is invoked, whatever the engine), the fall
interval and the end-delay stopwatch are the same; and the command returned is the batch
of the two empty clock commands, not the exit command. -/
theorem C1_stale_tick_discarded (eng : Engine G) (env : Env) (w : World G) (ID : Int)
    (hID : ID ≠ 0) (hlive : ID ∉ w.m.liveIDs) :
    Model.Update eng env w (Msg.TickMsg ID) =
      Except.ok (w, Cmd.Batch [TimerCmd.none, TimerCmd.none]) := by
  have h1 : ID ≠ w.m.timer.ID := by
    intro h
    exact hlive (by simp [Model.liveIDs, h])
  have h2 : ID ≠ w.m.fallStopwatch.ID := by
    intro h
    exact hlive (by simp [Model.liveIDs, h])
  have h3 : ID ≠ w.m.gameOverStopwatch.ID := by
    intro h
    by_cases hc : w.m.endDelayCreated = true
    · exact hlive (by simp [Model.liveIDs, hc, h])
    · simp only [Model.endDelayCreated, decide_eq_true_eq, not_not] at hc
      exact hID (h.trans hc)
  exact stale_tick_discarded eng env w ID h1 h2 h3

/-- Claim C1 on the scripted engine: a tick with identity 7, which no timer of the session
carries, is discarded in a Running, a Paused and a Finished state; in the Running state
the engine's record of calls stays empty. -/
theorem C1_stale_tick_discarded_witness :
    (7 : Int) ∉ (startedWorld []).m.liveIDs ∧
      (startedWorld []).m.game.log = [] ∧
      Model.Update (Scripted.engine []) sampleEnv (startedWorld []) (Msg.TickMsg 7) =
        Except.ok (startedWorld [], Cmd.Batch [TimerCmd.none, TimerCmd.none]) ∧
      Model.Update (Scripted.engine []) sampleEnv (pausedWorld []) (Msg.TickMsg 7) =
        Except.ok (pausedWorld [], Cmd.Batch [TimerCmd.none, TimerCmd.none]) ∧
      finishedWorld.m.liveIDs = [1, 2, 3] ∧
      Model.Update (Scripted.engine [Outcome.gameOver]) sampleEnv finishedWorld
          (Msg.TickMsg 7) =
        Except.ok (finishedWorld, Cmd.Batch [TimerCmd.none, TimerCmd.none]) :=
  ⟨by decide, rfl,
    C1_stale_tick_discarded (Scripted.engine []) sampleEnv (startedWorld []) 7
      (by decide) (by decide),
    C1_stale_tick_discarded (Scripted.engine []) sampleEnv (pausedWorld []) 7
      (by decide) (by decide),
    rfl,
    C1_stale_tick_discarded (Scripted.engine [Outcome.gameOver]) sampleEnv finishedWorld 7
      (by decide) (by decide)⟩

/-- Claim C2: a timer tick terminates the session only when the end-delay timer fires.
For every session state and every stopwatch tick (its identity is non-zero, as for every
tick the stopwatches of a session send), Update returns the exit command if and only if
the session is Finished (the engine is game over and the end-delay stopwatch has been
created) and the tick's identity is that stopwatch's.  A tick handled while Running or
Paused, before any end-delay stopwatch has been created, never returns the exit command;
a tick with any other identity handled while Finished returns a batch and leaves the
session Finished. -/
theorem C2_tick_exits_only_when_end_delay_fires (eng : Engine G) (env : Env) (w : World G)
    (ID : Int) (hw : Reachable eng env w) (hID : ID ≠ 0) :
    ((∃ w', Model.Update eng env w (Msg.TickMsg ID) = Except.ok (w', Cmd.Quit)) ↔
      (w.m.isFinished eng = true ∧ ID = w.m.gameOverStopwatch.ID)) ∧
    (w.m.endDelayCreated = false →
      ∀ w' c, Model.Update eng env w (Msg.TickMsg ID) = Except.ok (w', c) → c ≠ Cmd.Quit) ∧
    (w.m.isFinished eng = true → ID ≠ w.m.gameOverStopwatch.ID →
      ∃ w' cmds, Model.Update eng env w (Msg.TickMsg ID) =
          Except.ok (w', Cmd.Batch cmds) ∧
        w'.m.isFinished eng = true ∧ w'.m.gameOverStopwatch = w.m.gameOverStopwatch) := by
  have key := tick_quit_iff_finished eng env w ID hw hID
  refine ⟨key, ?_, ?_⟩
  · intro hc w' c h hq
    subst hq
    have hfin := (key.mp ⟨w', h⟩).1
    simp [Model.isFinished, hc] at hfin
  · intro hfin hne
    obtain ⟨lastID, ⟨styles, help, keys, timer, fs, paused, fall, go, game⟩⟩ := w
    simp only [Model.isFinished, Model.endDelayCreated, stopwatch.Model.ID,
      Bool.and_eq_true, decide_eq_true_eq] at hfin hne
    obtain ⟨ho, hgo⟩ := hfin
    simp [Model.Update, Model.alwaysOps, stopwatch.Model.ID, Ne.symm hne, ho,
      Model.isFinished, Model.endDelayCreated, hgo]

/-- Claim C2 on the scripted engine (Scenarios C and D): in the Finished session, a
session state, the tick of the end-delay stopwatch 3 returns the exit command, and the
tick of the fall clock 2 returns a batch and leaves the session Finished; in the started
session, where no end-delay stopwatch exists, the tick of the fall clock does not return
the exit command. -/
theorem C2_tick_exits_only_when_end_delay_fires_witness :
    Reachable (Scripted.engine [Outcome.gameOver]) sampleEnv finishedWorld ∧
      finishedWorld.m.isFinished (Scripted.engine [Outcome.gameOver]) = true ∧
      finishedWorld.m.gameOverStopwatch.ID = 3 ∧
      (∃ w', Model.Update (Scripted.engine [Outcome.gameOver]) sampleEnv finishedWorld
        (Msg.TickMsg 3) = Except.ok (w', Cmd.Quit)) ∧
      (Model.Update (Scripted.engine [Outcome.gameOver]) sampleEnv finishedWorld
          (Msg.TickMsg 2)).map
        (fun r => (r.1.m.isFinished (Scripted.engine [Outcome.gameOver]), r.2)) =
        Except.ok (true, Cmd.Batch [TimerCmd.none, TimerCmd.tick 2 1000000000]) ∧
      (Model.Update (Scripted.engine []) sampleEnv (startedWorld []) (Msg.TickMsg 2)).map
          Prod.snd =
        Except.ok (Cmd.Batch [TimerCmd.none, TimerCmd.tick 2 1000000000]) :=
  have hreach : Reachable (Scripted.engine [Outcome.gameOver]) sampleEnv finishedWorld :=
    session_reachable [Outcome.gameOver]
      [Msg.StartStopMsg 1 true, Msg.StartStopMsg 2 true, Msg.TickMsg 2] _ rfl
  ⟨hreach, rfl, rfl,
    (C2_tick_exits_only_when_end_delay_fires (Scripted.engine [Outcome.gameOver]) sampleEnv
      finishedWorld 3 hreach (by decide)).1.mpr ⟨rfl, rfl⟩,
    rfl, rfl⟩

/-- Claim C3 (entering Finished always creates the end-delay timer) is not met by the
code on the HardDrop path.  In a Running session whose engine ends the game on the hard
drop, Update returns only the reset of the fall clock: the engine is game over, the field
of the end-delay stopwatch is still the zero value and no start command is returned; the
fall tick and the further keys that follow do not create the stopwatch either. -/
theorem C3_hard_drop_game_over_creates_no_end_delay_timer :
    Reachable (Scripted.engine [Outcome.gameOver]) sampleEnv
        (startedWorld [Outcome.gameOver]) ∧
      (startedWorld [Outcome.gameOver]).m.isRunning (Scripted.engine [Outcome.gameOver]) =
        true ∧
      (Model.Update (Scripted.engine [Outcome.gameOver]) sampleEnv
          (startedWorld [Outcome.gameOver]) (Msg.KeyMsg "space")).map
        (fun r => (r.1.m.game.over, r.1.m.gameOverStopwatch, r.1.m.game.log, r.2)) =
        Except.ok (true, stopwatch.zero, [Call.HardDrop],
          Cmd.Batch [TimerCmd.none, TimerCmd.none, TimerCmd.reset 2]) ∧
      (session [Outcome.gameOver]
          [Msg.StartStopMsg 1 true, Msg.StartStopMsg 2 true, Msg.KeyMsg "space",
           Msg.ResetMsg 2, Msg.TickMsg 2, Msg.KeyMsg "space", Msg.TickMsg 1]).map
        (fun r => (r.1.m.game.over, r.1.m.endDelayCreated, r.1.m.isFinished
          (Scripted.engine [Outcome.gameOver]), r.2.drop 3)) =
        Except.ok (true, false, false,
          [Cmd.Batch [TimerCmd.none, TimerCmd.none],
           Cmd.Batch [TimerCmd.none, TimerCmd.tick 2 1000000000],
           Cmd.Batch [TimerCmd.none, TimerCmd.none],
           Cmd.Batch [TimerCmd.tick 1 1000000, TimerCmd.none]]) :=
  ⟨session_reachable [Outcome.gameOver] [Msg.StartStopMsg 1 true, Msg.StartStopMsg 2 true]
      _ rfl,
    rfl, rfl, rfl⟩

/-- Claim C4 as stated fails in two places.  First, the state NewModel returns is Running
with both clocks not running (the same state is reached again when two Pause presses are
handled before the stop messages of the first come back); there a fall tick that locks
with game over returns start commands for the session clock and the fall clock, not stop
commands.  Second, on an engine that reports game over after a TickLower that did not
lock, the tick returns no timer command and creates no stopwatch, but the session does
not stay Running: the engine is game over. -/
theorem C4_counterexample_game_over_tick_starts_clocks :
    Reachable (Scripted.engine [Outcome.gameOver]) sampleEnv
        (freshWorld [Outcome.gameOver]) ∧
      (session [Outcome.gameOver] doublePause).map Prod.fst =
        Except.ok (freshWorld [Outcome.gameOver]) ∧
      (freshWorld [Outcome.gameOver]).m.isRunning (Scripted.engine [Outcome.gameOver]) =
        true ∧
      (freshWorld [Outcome.gameOver]).m.fallStopwatch.ID = 2 ∧
      ((Scripted.engine [Outcome.gameOver]).TickLower
          (freshWorld [Outcome.gameOver]).m.game).map
        (fun r => (r.1, (Scripted.engine [Outcome.gameOver]).IsGameOver r.2)) =
        Except.ok (true, true) ∧
      (Model.Update (Scripted.engine [Outcome.gameOver]) sampleEnv
          (freshWorld [Outcome.gameOver]) (Msg.TickMsg 2)).map Prod.snd =
        Except.ok (Cmd.Batch [TimerCmd.none, TimerCmd.none, TimerCmd.start 1 1000000,
          TimerCmd.start 2 1000000000, TimerCmd.start 3 5000000000]) ∧
      Reachable (Scripted.engine [Outcome.topOut]) sampleEnv
        (startedWorld [Outcome.topOut]) ∧
      (startedWorld [Outcome.topOut]).m.isRunning (Scripted.engine [Outcome.topOut]) =
        true ∧
      ((Scripted.engine [Outcome.topOut]).TickLower
          (startedWorld [Outcome.topOut]).m.game).map
        (fun r => (r.1, (Scripted.engine [Outcome.topOut]).IsGameOver r.2)) =
        Except.ok (false, true) ∧
      (Model.Update (Scripted.engine [Outcome.topOut]) sampleEnv
          (startedWorld [Outcome.topOut]) (Msg.TickMsg 2)).map
        (fun r => (r.1.m.isRunning (Scripted.engine [Outcome.topOut]),
          r.1.m.endDelayCreated, r.2)) =
        Except.ok (false, false,
          Cmd.Batch [TimerCmd.none, TimerCmd.tick 2 1000000000]) :=
  ⟨session_reachable [Outcome.gameOver] [] _ rfl, rfl, rfl, rfl, rfl, rfl,
    session_reachable [Outcome.topOut] [Msg.StartStopMsg 1 true, Msg.StartStopMsg 2 true]
      _ rfl,
    rfl, rfl, rfl⟩

/-- Claim C4, amended: in every session state that is Running, a tick with the fall
clock's identity for which TickLower reports a lock and the engine is then game over
makes the session Finished, creates the end-delay stopwatch (a new identity, interval
5 s) and returns, after the clocks' own commands, the toggle of the session clock, the
toggle of the fall clock and the start command of the end-delay stopwatch; the toggle of
a clock is a stop command whenever that clock is running, so both clocks are stopped and
neither is started when both are running.  When TickLower does not lock, or locks
without game over, only the clocks' own commands are returned (the empty command or the
fall clock's next tick: no start, stop or reset), no stopwatch is created, the session
stays unpaused with the engine state TickLower left, and it stays Running exactly when
that engine state is not game over: always after a lock without game over, and after a
tick without a lock unless the engine reports game over all the same. -/
theorem C4_game_over_on_fall_tick (eng : Engine G) (env : Env) (w : World G) (r : Bool × G)
    (hw : Reachable eng env w) (hr : w.m.isRunning eng = true)
    (hl : eng.TickLower w.m.game = Except.ok r) :
    (r.1 = true ∧ eng.IsGameOver r.2 = true →
      ∃ w', Model.Update eng env w (Msg.TickMsg w.m.fallStopwatch.ID) =
          Except.ok (w', Cmd.Batch [TimerCmd.none,
            (w.m.fallStopwatch.Update (Msg.TickMsg w.m.fallStopwatch.ID)).2,
            w.m.timer.Toggle, w.m.fallStopwatch.Toggle,
            TimerCmd.start (w.lastID + 1) (Second * 5)]) ∧
        (w.m.timer.Running = true → w.m.timer.Toggle = TimerCmd.stop w.m.timer.ID) ∧
        (w.m.fallStopwatch.Running = true →
          w.m.fallStopwatch.Toggle = TimerCmd.stop w.m.fallStopwatch.ID) ∧
        (w.m.fallStopwatch.Running = true →
          (w.m.fallStopwatch.Update (Msg.TickMsg w.m.fallStopwatch.ID)).2 =
            TimerCmd.tick w.m.fallStopwatch.ID w.m.fallStopwatch.Interval) ∧
        w'.m.gameOverStopwatch.ID = w.lastID + 1 ∧
        w.m.endDelayCreated = false ∧ w'.m.endDelayCreated = true ∧
        w'.m.isFinished eng = true ∧
        w'.m.gameOverStopwatch.ID ≠ w.m.timer.ID ∧
        w'.m.gameOverStopwatch.ID ≠ w.m.fallStopwatch.ID ∧
        w'.m.gameOverStopwatch.Interval = Second * 5 ∧
        w'.m.game = r.2 ∧ w'.m.paused = false) ∧
    (¬ (r.1 = true ∧ eng.IsGameOver r.2 = true) →
      ∃ w', Model.Update eng env w (Msg.TickMsg w.m.fallStopwatch.ID) =
          Except.ok (w', Cmd.Batch [TimerCmd.none,
            (w.m.fallStopwatch.Update (Msg.TickMsg w.m.fallStopwatch.ID)).2]) ∧
        ((w.m.fallStopwatch.Update (Msg.TickMsg w.m.fallStopwatch.ID)).2 = TimerCmd.none ∨
          (w.m.fallStopwatch.Update (Msg.TickMsg w.m.fallStopwatch.ID)).2 =
            TimerCmd.tick w.m.fallStopwatch.ID w.m.fallStopwatch.Interval) ∧
        w'.m.gameOverStopwatch = w.m.gameOverStopwatch ∧ w'.lastID = w.lastID ∧
        w'.m.game = r.2 ∧ w'.m.paused = false ∧
        w'.m.isRunning eng = !eng.IsGameOver r.2 ∧
        (r.1 = true → w'.m.isRunning eng = true) ∧
        ((r.1 = false → eng.IsGameOver r.2 = false) → w'.m.isRunning eng = true)) := by
  obtain ⟨i1, i2, i3, i4⟩ := Reachable.inv eng env w hw
  obtain ⟨lastID, ⟨styles, help, keys, ⟨td, tid, trun, tint⟩, fs, paused,
    ⟨fd, fid, frun, fint⟩, go, game⟩⟩ := w
  simp only [Model.isRunning, Bool.and_eq_true, Bool.not_eq_true'] at hr
  obtain ⟨hp, ho⟩ := hr
  simp only at hp ho hl i1 i2 i3 i4
  subst hp
  rw [ho] at i4
  simp only [Bool.false_eq_true, and_false, or_false] at i4
  obtain ⟨i4, i5⟩ := i4
  subst lastID
  have n1 : ¬ fid = tid := by omega
  have n2 : ¬ go.id = fid := by omega
  have n0 : ¬ (0 : Int) = fid := by omega
  have e : wrapInt64 (fid + 1) = fid + 1 := wrapInt64_eq _ (by omega) (by omega)
  constructor
  · rintro ⟨h1, h2⟩
    cases trun <;> cases frun <;>
      simp [Model.Update, Model.alwaysOps, Model.gameplayOps, stopwatch.Model.Update,
        ho, stopwatch.Model.ID, n1, n2, hl, h1, h2, stopwatch.Model.Toggle,
        stopwatch.Model.Running, stopwatch.Model.Stop, stopwatch.Model.Start,
        stopwatch.NewWithInterval, Model.endDelayCreated, Model.isFinished, e, i4, n0] <;>
      omega
  · intro h
    simp only [not_and, Bool.not_eq_true] at h
    have h3 : (r.1 && eng.IsGameOver r.2) = false := by
      cases h1 : r.1 <;> simp_all
    cases trun <;> cases frun <;> cases h4 : r.1 <;> cases h5 : eng.IsGameOver r.2 <;>
      simp_all [Model.Update, Model.alwaysOps, Model.gameplayOps, stopwatch.Model.Update,
        stopwatch.Model.ID, Model.isRunning]

/-- The amended claim C4 on a started session (both clocks running) whose engine ends
the game on the first fall tick: stop commands for clocks 1 and 2, start of the new
stopwatch 3, and the session is Finished. -/
theorem C4_game_over_on_fall_tick_witness :
    (startedWorld [Outcome.gameOver]).m.isRunning (Scripted.engine [Outcome.gameOver]) =
        true ∧
      (startedWorld [Outcome.gameOver]).m.timer.Running = true ∧
      (startedWorld [Outcome.gameOver]).m.fallStopwatch.Running = true ∧
      (Model.Update (Scripted.engine [Outcome.gameOver]) sampleEnv
          (startedWorld [Outcome.gameOver]) (Msg.TickMsg 2)).map
        (fun r => (r.1.m.isFinished (Scripted.engine [Outcome.gameOver]), r.2)) =
        Except.ok (true, Cmd.Batch [TimerCmd.none, TimerCmd.tick 2 1000000000,
          TimerCmd.stop 1, TimerCmd.stop 2, TimerCmd.start 3 5000000000]) := by
  obtain ⟨w', h, -, -, -, -, -, -, hfin, -⟩ :=
    (C4_game_over_on_fall_tick (Scripted.engine [Outcome.gameOver]) sampleEnv
      (startedWorld [Outcome.gameOver])
      (true, { over := true, soft := false, level := 0, script := [],
               log := [Call.TickLower] })
      (session_reachable [Outcome.gameOver]
        [Msg.StartStopMsg 1 true, Msg.StartStopMsg 2 true] _ rfl)
      rfl rfl).1 ⟨rfl, rfl⟩
  refine ⟨rfl, rfl, rfl, ?_⟩
  have h' : Model.Update (Scripted.engine [Outcome.gameOver]) sampleEnv
      (startedWorld [Outcome.gameOver]) (Msg.TickMsg 2) =
      Except.ok (w', Cmd.Batch [TimerCmd.none, TimerCmd.tick 2 1000000000,
        TimerCmd.stop 1, TimerCmd.stop 2, TimerCmd.start 3 5000000000]) := h
  rw [h']
  simp only [Except.map, hfin]

/-- Claim C5 as stated fails: in the Running state NewModel returns (reached again after
the double Pause press) both clocks are stopped, and handling the Pause key once yields
Paused with both clocks running: the returned commands start them. -/
theorem C5_counterexample_pause_starts_stopped_clocks :
    Reachable (Scripted.engine []) sampleEnv (freshWorld []) ∧
      (session [] doublePause).map Prod.fst = Except.ok (freshWorld []) ∧
      (freshWorld []).m.isRunning (Scripted.engine []) = true ∧
      (Model.Update (Scripted.engine []) sampleEnv (freshWorld []) (Msg.KeyMsg "p")).map
          Prod.snd =
        Except.ok (Cmd.Batch [TimerCmd.none, TimerCmd.none, TimerCmd.start 1 1000000,
          TimerCmd.start 2 1000000000]) ∧
      (Model.handle (Scripted.engine []) sampleEnv (freshWorld []) (Msg.KeyMsg "p")).map
          (fun w => (w.m.paused, w.m.timer.Running, w.m.fallStopwatch.Running)) =
        Except.ok (true, true, true) :=
  ⟨session_reachable [] [] _ rfl, rfl, rfl, rfl, rfl⟩

/-- Claim C5, amended: in every session state that is Running, handling the Pause key
once (with the returned commands applied) yields Paused with the running flag of the
session clock and of the fall clock each toggled, so both are stopped when both were
running; the command returned is the toggle of each clock.  Handling it a second time
yields exactly the state before the first press: paused = false, both clocks back in
their running/stopped state, the engine state unchanged by both presses. -/
theorem C5_pause_twice_restores (eng : Engine G) (env : Env) (w : World G) (k : String)
    (hw : Reachable eng env w) (hr : w.m.isRunning eng = true)
    (hk : w.m.keys.bindings.lookup k = some Action.Pause) :
    ∃ w1, Model.Update eng env w (Msg.KeyMsg k) =
        Except.ok ({ w with m := { w.m with paused := true } },
          Cmd.Batch [TimerCmd.none, TimerCmd.none, w.m.timer.Toggle,
            w.m.fallStopwatch.Toggle]) ∧
      Model.handle eng env w (Msg.KeyMsg k) = Except.ok w1 ∧
      w1.m.paused = true ∧
      w1.m.timer.Running = !w.m.timer.Running ∧
      w1.m.fallStopwatch.Running = !w.m.fallStopwatch.Running ∧
      w1.m.game = w.m.game ∧
      Model.handle eng env w1 (Msg.KeyMsg k) = Except.ok w := by
  obtain ⟨i1, i2, i3, i4⟩ := Reachable.inv eng env w hw
  obtain ⟨lastID, ⟨styles, help, keys, ⟨td, tid, trun, tint⟩, fs, paused,
    ⟨fd, fid, frun, fint⟩, go, game⟩⟩ := w
  simp only [Model.isRunning, Bool.and_eq_true, Bool.not_eq_true'] at hr
  obtain ⟨hp, ho⟩ := hr
  simp only at hp ho hk i1 i2 i3 i4
  subst hp
  have n1 : ¬ fid = tid := by omega
  have n3 : ¬ tid = fid := by omega
  cases trun <;> cases frun <;>
    simp [Model.Update, Model.alwaysOps, Model.gameplayOps, stopwatch.Model.Update,
      Matches, hk, ho, stopwatch.Model.Toggle, stopwatch.Model.Running,
      stopwatch.Model.Stop, stopwatch.Model.Start, Model.handle, Model.deliver, Cmd.msgs,
      TimerCmd.msgs, n1, n3]

/-- The amended claim C5 on a started session (Scenario A): the first press yields
Paused with both clocks stopped, the second press gives back the started state. -/
theorem C5_pause_twice_restores_witness :
    (startedWorld []).m.isRunning (Scripted.engine []) = true ∧
      Model.handle (Scripted.engine []) sampleEnv (startedWorld []) (Msg.KeyMsg "p") =
        Except.ok (pausedWorld []) ∧
      Model.handle (Scripted.engine []) sampleEnv (pausedWorld []) (Msg.KeyMsg "p") =
        Except.ok (startedWorld []) := by
  obtain ⟨w1, -, h1, -, -, -, -, h2⟩ :=
    C5_pause_twice_restores (Scripted.engine []) sampleEnv (startedWorld []) "p"
      (session_reachable [] [Msg.StartStopMsg 1 true, Msg.StartStopMsg 2 true] _ rfl)
      rfl rfl
  have e : w1 = pausedWorld [] :=
    Except.ok.inj (h1.symm.trans (rfl : Model.handle (Scripted.engine []) sampleEnv
      (startedWorld []) (Msg.KeyMsg "p") = Except.ok (pausedWorld [])))
  subst e
  exact ⟨rfl, h1, h2⟩

/-- Claim C6: for a key bound to a gameplay action (Left, Right, Clockwise,
CounterClockwise, HardDrop, SoftDrop, Hold), while the controller is Running Update
invokes the corresponding engine operation once: it panics when that invocation fails
and otherwise returns with the engine state that one invocation leaves.  While the
controller is Paused or the engine is game over, Update returns the state unchanged
(engine state and fall interval included) together with the two empty clock commands,
so no engine operation is invoked and no reset is emitted. -/
theorem C6_gameplay_input_only_while_running (eng : Engine G) (env : Env) (w : World G)
    (k : String) (a : Action) (call : Call)
    (hk : w.m.keys.bindings.lookup k = some a) (ha : a.call = some call) :
    (w.m.isRunning eng = true →
      (∀ e, eng.invoke call w.m.game = Except.error e →
        ∃ e', Model.Update eng env w (Msg.KeyMsg k) = Except.error e') ∧
      (∀ g, eng.invoke call w.m.game = Except.ok g →
        ∃ w' c, Model.Update eng env w (Msg.KeyMsg k) = Except.ok (w', c) ∧
          w'.m.game = g)) ∧
    (w.m.isRunning eng = false →
      Model.Update eng env w (Msg.KeyMsg k) =
        Except.ok (w, Cmd.Batch [TimerCmd.none, TimerCmd.none])) := by
  obtain ⟨lastID, ⟨styles, help, keys, timer, fs, paused, fall, go, game⟩⟩ := w
  simp only [Model.isRunning] at *
  constructor
  · intro hr
    simp only [Bool.and_eq_true, Bool.not_eq_true'] at hr
    obtain ⟨hp, ho⟩ := hr
    subst hp
    cases a <;> simp only [Action.call, Option.some.injEq, reduceCtorEq] at ha <;>
      subst ha <;> simp only [Engine.invoke] <;>
      simp [Model.Update, Model.alwaysOps, Model.gameplayOps, stopwatch.Model.Update,
        Matches, hk, ho, Except.map] <;>
      constructor <;> intro x hx <;> (try split at hx) <;> simp_all
  · intro hr
    cases a <;> simp only [Action.call, Option.some.injEq, reduceCtorEq] at ha <;>
      simp [Model.Update, Model.alwaysOps, Model.gameplayOps, stopwatch.Model.Update,
        Matches, hk] <;>
      simp_all

/-- Claim C6 on the scripted engine (Scenario E): in a started session the Left key makes
the engine record exactly one MoveLeft; the same key in the paused session returns the
paused state as it is, the engine's record still empty. -/
theorem C6_gameplay_input_only_while_running_witness :
    (startedWorld []).m.isRunning (Scripted.engine []) = true ∧
      (Model.Update (Scripted.engine []) sampleEnv (startedWorld [])
          (Msg.KeyMsg "left")).map (fun r => r.1.m.game.log) =
        Except.ok [Call.MoveLeft] ∧
      (pausedWorld []).m.isRunning (Scripted.engine []) = false ∧
      (pausedWorld []).m.game.log = [] ∧
      Model.Update (Scripted.engine []) sampleEnv (pausedWorld []) (Msg.KeyMsg "left") =
        Except.ok (pausedWorld [], Cmd.Batch [TimerCmd.none, TimerCmd.none]) := by
  refine ⟨rfl, ?_, rfl, rfl, ?_⟩
  · obtain ⟨w', c, h, hg⟩ :=
      ((C6_gameplay_input_only_while_running (Scripted.engine []) sampleEnv
        (startedWorld []) "left" Action.Left Call.MoveLeft rfl rfl).1 rfl).2
        { over := false, soft := false, level := 0, script := [], log := [Call.MoveLeft] }
        rfl
    rw [h]
    simp only [Except.map, hg]
  · exact (C6_gameplay_input_only_while_running (Scripted.engine []) sampleEnv
      (pausedWorld []) "left" Action.Left Call.MoveLeft rfl rfl).2 rfl

/-- Claim C7: in every session state, Update panics if and only if the controller is
Running (not paused, engine not game over; the always-allowed handling of a forwarded
event does not change this) and the event is forwarded to an engine operation (MoveLeft,
MoveRight, Rotate, HardDrop, Hold, or TickLower on a tick with the fall clock's
identity) that returns an error.  For every event delivered while Paused or while the
engine is game over, and for every event that is forwarded to no operation, Update
returns normally. -/
theorem C7_panic_iff_forwarded_operation_fails (eng : Engine G) (env : Env) (w : World G)
    (msg : Msg) (hw : Reachable eng env w) :
    ((∃ e, Model.Update eng env w msg = Except.error e) ↔
      (w.m.isRunning eng = true ∧
        ∃ call, w.m.forwards msg = some call ∧
          ∃ e, eng.invoke call w.m.game = Except.error e)) ∧
    (w.m.isRunning eng = false → ∃ r, Model.Update eng env w msg = Except.ok r) ∧
    (w.m.forwards msg = none → ∃ r, Model.Update eng env w msg = Except.ok r) := by
  have key : (∃ e, Model.Update eng env w msg = Except.error e) ↔
      (w.m.isRunning eng = true ∧
        ∃ call, w.m.forwards msg = some call ∧
          ∃ e, eng.invoke call w.m.game = Except.error e) := by
    obtain ⟨i1, i2, i3, i4⟩ := Reachable.inv eng env w hw
    obtain ⟨lastID, ⟨styles, help, keys, timer, fs, paused, fall, go, game⟩⟩ := w
    simp only at i1 i2 i3 i4
    cases msg with
    | KeyMsg k =>
      cases hl : keys.bindings.lookup k with
      | none =>
        simp [Model.Update, Model.alwaysOps, Model.gameplayOps, stopwatch.Model.Update,
          Matches, hl, Model.forwards]
      | some a =>
        cases a <;> cases paused <;> cases ho : eng.IsGameOver game <;>
          simp [Model.Update, Model.alwaysOps, Model.gameplayOps, stopwatch.Model.Update,
            Matches, hl, ho, Model.forwards, Action.call, Engine.invoke, Model.isRunning,
            Except.map] <;>
          (try (split <;> simp_all))
    | TickMsg ID =>
      have n2 : ¬ go.id = fall.id := by omega
      by_cases hID : ID = fall.id
      · subst hID
        cases paused <;> cases ho : eng.IsGameOver game <;> cases hrun : fall.running <;>
          simp [Model.Update, Model.alwaysOps, Model.gameplayOps, stopwatch.Model.Update,
            ho, Model.forwards, Engine.invoke, Model.isRunning, stopwatch.Model.ID, n2,
            Except.map, hrun] <;>
          (try (split <;> simp_all)) <;> (try (split <;> simp_all))
      · by_cases hgo : go.id = ID <;>
        cases paused <;> cases ho : eng.IsGameOver game <;>
          simp [Model.Update, Model.alwaysOps, Model.gameplayOps, stopwatch.Model.Update,
            ho, Model.forwards, Engine.invoke, Model.isRunning, stopwatch.Model.ID, hgo,
            hID, Ne.symm hID, Except.map]
    | WindowSizeMsg _ _ | StartStopMsg _ _ | ResetMsg _ | SwitchModeMsg _ | other =>
      simp [Model.Update, Model.alwaysOps, Model.gameplayOps, stopwatch.Model.Update,
        Model.forwards] <;>
      (try (split <;> simp_all))
  refine ⟨key, ?_, ?_⟩
  · intro hr
    cases h : Model.Update eng env w msg with
    | ok r => exact ⟨r, rfl⟩
    | error e =>
      have := key.mp ⟨e, h⟩
      simp [hr] at this
  · intro hf
    cases h : Model.Update eng env w msg with
    | ok r => exact ⟨r, rfl⟩
    | error e =>
      have := key.mp ⟨e, h⟩
      simp [hf] at this

/-- Claim C7 on the scripted engine: in a started session whose engine rejects the first
operation, the Left key is forwarded to MoveLeft, which fails, and Update panics with the
wrapped engine error; the same key in the paused session returns normally. -/
theorem C7_panic_iff_forwarded_operation_fails_witness :
    (startedWorld [Outcome.fail]).m.isRunning (Scripted.engine [Outcome.fail]) = true ∧
      (startedWorld [Outcome.fail]).m.forwards (Msg.KeyMsg "left") = some Call.MoveLeft ∧
      (Scripted.engine [Outcome.fail]).invoke Call.MoveLeft
          (startedWorld [Outcome.fail]).m.game = Except.error "invalid state" ∧
      (∃ e, Model.Update (Scripted.engine [Outcome.fail]) sampleEnv
        (startedWorld [Outcome.fail]) (Msg.KeyMsg "left") = Except.error e) ∧
      Model.Update (Scripted.engine [Outcome.fail]) sampleEnv
        (startedWorld [Outcome.fail]) (Msg.KeyMsg "left") =
        Except.error "failed to move tetrimino left: invalid state" ∧
      Model.Update (Scripted.engine [Outcome.fail]) sampleEnv
        (pausedWorld [Outcome.fail]) (Msg.KeyMsg "left") =
        Except.ok (pausedWorld [Outcome.fail], Cmd.Batch [TimerCmd.none, TimerCmd.none]) :=
  ⟨rfl, rfl, rfl,
    (C7_panic_iff_forwarded_operation_fails (Scripted.engine [Outcome.fail]) sampleEnv
      (startedWorld [Outcome.fail]) (Msg.KeyMsg "left")
      (session_reachable [Outcome.fail]
        [Msg.StartStopMsg 1 true, Msg.StartStopMsg 2 true] _ rfl)).1.mpr
      ⟨rfl, Call.MoveLeft, rfl, "invalid state", rfl⟩,
    rfl, rfl⟩

/-- Claim C8: in every Running state, handling a SoftDrop key sets the fall clock's
interval to exactly the value the engine's ToggleSoftDrop returns in that call, so that
whenever the engine returns the ambient gravity interval of the state it is left in (a
release), the fall interval is the ambient gravity in effect at that moment.  The paused
flag, the session clock, the end-delay stopwatch and the rest of the fall clock are
unchanged, and the command returned holds no reset (only the two empty clock
commands). -/
theorem C8_soft_drop_sets_interval (eng : Engine G) (env : Env) (w : World G) (k : String)
    (hk : w.m.keys.bindings.lookup k = some Action.SoftDrop)
    (hr : w.m.isRunning eng = true) :
    ∃ w', Model.Update eng env w (Msg.KeyMsg k) =
        Except.ok (w', Cmd.Batch [TimerCmd.none, TimerCmd.none]) ∧
      w'.m.fallStopwatch.Interval = (eng.ToggleSoftDrop w.m.game).1 ∧
      w'.m.game = (eng.ToggleSoftDrop w.m.game).2 ∧
      (∀ ambient : G → Duration,
        (eng.ToggleSoftDrop w.m.game).1 = ambient (eng.ToggleSoftDrop w.m.game).2 →
        w'.m.fallStopwatch.Interval = ambient w'.m.game) ∧
      w'.m.paused = w.m.paused ∧ w'.m.timer = w.m.timer ∧
      w'.m.gameOverStopwatch = w.m.gameOverStopwatch ∧
      w'.m.fallStopwatch.id = w.m.fallStopwatch.id ∧
      w'.m.fallStopwatch.d = w.m.fallStopwatch.d ∧
      w'.m.fallStopwatch.running = w.m.fallStopwatch.running ∧
      w'.lastID = w.lastID := by
  obtain ⟨lastID, ⟨styles, help, keys, timer, fs, paused, fall, go, game⟩⟩ := w
  simp only [Model.isRunning, Bool.and_eq_true, Bool.not_eq_true'] at hr
  obtain ⟨hp, ho⟩ := hr
  simp only at hp ho hk
  subst hp
  simp [Model.Update, Model.alwaysOps, Model.gameplayOps, stopwatch.Model.Update,
    Matches, hk, ho]

/-- Claim C8 on the scripted engine: soft drop is pressed at level 0 (interval 50 ms),
a fall tick advances the level while it is held, and on release the fall interval is the
ambient gravity of the new level (500 ms), not the one in effect at the press (1 s). -/
theorem C8_soft_drop_sets_interval_witness :
    (session [Outcome.levelUp] [Msg.StartStopMsg 1 true, Msg.StartStopMsg 2 true,
        Msg.KeyMsg "down", Msg.TickMsg 2]).map Prod.fst = Except.ok softDropHeldWorld ∧
      softDropHeldWorld.m.isRunning (Scripted.engine [Outcome.levelUp]) = true ∧
      (Model.Update (Scripted.engine [Outcome.levelUp]) sampleEnv softDropHeldWorld
          (Msg.KeyMsg "down")).map
        (fun r => (r.1.m.fallStopwatch.Interval, r.1.m.game.ambient, r.1.m.game.soft,
          r.2)) =
        Except.ok (500000000, 500000000, false,
          Cmd.Batch [TimerCmd.none, TimerCmd.none]) := by
  obtain ⟨w', h, hi, hg, -⟩ :=
    C8_soft_drop_sets_interval (Scripted.engine [Outcome.levelUp]) sampleEnv
      softDropHeldWorld "down" rfl rfl
  refine ⟨rfl, rfl, ?_⟩
  rw [h]
  simp only [Except.map, hi, hg]
  rfl

/-- Claim C9 as stated fails: in a started session the fall interval (1 s) equals the
engine's effective interval; a fall tick, or a hard drop, then makes the engine advance
to level 1, where its ambient gravity interval is 500 ms, and after that same Update the
fall clock's interval is still 1 s. -/
theorem C9_counterexample_interval_stale_after_level_up :
    Reachable (Scripted.engine [Outcome.levelUp]) sampleEnv
        (startedWorld [Outcome.levelUp]) ∧
      (startedWorld [Outcome.levelUp]).m.fallStopwatch.Interval =
        (startedWorld [Outcome.levelUp]).m.game.effective ∧
      (Model.Update (Scripted.engine [Outcome.levelUp]) sampleEnv
          (startedWorld [Outcome.levelUp]) (Msg.TickMsg 2)).map
        (fun r => (r.1.m.game.level, r.1.m.game.soft, r.1.m.game.effective,
          r.1.m.fallStopwatch.Interval)) =
        Except.ok (1, false, 500000000, 1000000000) ∧
      (Model.Update (Scripted.engine [Outcome.levelUp]) sampleEnv
          (startedWorld [Outcome.levelUp]) (Msg.KeyMsg "space")).map
        (fun r => (r.1.m.game.level, r.1.m.game.soft, r.1.m.game.effective,
          r.1.m.fallStopwatch.Interval)) =
        Except.ok (1, false, 500000000, 1000000000) :=
  ⟨session_reachable [Outcome.levelUp] [Msg.StartStopMsg 1 true, Msg.StartStopMsg 2 true]
      _ rfl,
    rfl, rfl, rfl⟩

/-- Claim C9, amended.  Let `effective` be the engine's currently effective fall interval,
for an engine whose new game has its ambient interval Fall.DefaultTime in effect and
whose ToggleSoftDrop returns the interval in effect after the toggle.  Then the fall
clock's interval equals the effective interval after NewModel and after every SoftDrop
key handled while Running; every other event handled by Update leaves the fall clock's
interval as it was, so it still equals the effective interval as long as that event did
not change the engine's effective interval.  (Update does not assign the interval on a
fall tick or a hard drop: a level change made there reaches the fall clock only with the
next SoftDrop toggle.) -/
theorem C9_fall_interval_follows_engine_at_soft_drop_toggles (eng : Engine G) (env : Env)
    (effective : G → Duration)
    (hnew : ∀ level maxLevel g, eng.NewGame level maxLevel = Except.ok g →
      eng.DefaultTime g = effective g)
    (htoggle : ∀ g, (eng.ToggleSoftDrop g).1 = effective (eng.ToggleSoftDrop g).2) :
    (∀ keys lastID inp w, NewModel eng env keys lastID inp = Except.ok w →
      w.m.fallStopwatch.Interval = effective w.m.game) ∧
    (∀ w k, w.m.keys.bindings.lookup k = some Action.SoftDrop →
      w.m.isRunning eng = true →
      ∃ w' c, Model.Update eng env w (Msg.KeyMsg k) = Except.ok (w', c) ∧
        w'.m.fallStopwatch.Interval = effective w'.m.game) ∧
    (∀ w msg w' c, Model.Update eng env w msg = Except.ok (w', c) →
      ¬ (w.m.isRunning eng = true ∧
        ∃ k, msg = Msg.KeyMsg k ∧ w.m.keys.bindings.lookup k = some Action.SoftDrop) →
      w'.m.fallStopwatch.Interval = w.m.fallStopwatch.Interval ∧
      (w.m.fallStopwatch.Interval = effective w.m.game →
        effective w'.m.game = effective w.m.game →
        w'.m.fallStopwatch.Interval = effective w'.m.game)) := by
  refine ⟨?_, ?_, ?_⟩
  · intro keys lastID inp w h
    rw [(NewModel_fall_interval eng env keys lastID inp w h).1]
    unfold NewModel at h
    split at h
    · simp at h
    · rename_i game hg
      simp only at h
      split at h
      · simp at h
      · simp only [Except.ok.injEq] at h
        subst h
        exact hnew _ _ _ hg
  · intro w k hk hr
    exact ⟨_, _, Update_soft_drop eng env w k hk hr, htoggle w.m.game⟩
  · intro w msg w' c h hns
    have hsame : w'.m.fallStopwatch.Interval = w.m.fallStopwatch.Interval := by
      by_contra hne
      exact hns (fall_interval_set_by_soft_drop_only eng env w w' msg c h hne)
    exact ⟨hsame, fun hinv heff => by rw [hsame, hinv, heff]⟩

/-- The amended claim C9 on the scripted engine, whose effective interval meets both
conditions: after NewModel the fall interval is the effective 1 s, and when soft drop is
released at level 1 the fall interval becomes the effective 500 ms. -/
theorem C9_fall_interval_follows_engine_at_soft_drop_toggles_witness :
    (freshWorld []).m.fallStopwatch.Interval = (freshWorld []).m.game.effective ∧
      (Model.Update (Scripted.engine []) sampleEnv softDropHeldWorld
          (Msg.KeyMsg "down")).map
        (fun r => (r.1.m.fallStopwatch.Interval, r.1.m.game.effective)) =
        Except.ok (500000000, 500000000) := by
  have hnew : ∀ level maxLevel g,
      (Scripted.engine []).NewGame level maxLevel = Except.ok g →
      (Scripted.engine []).DefaultTime g = Scripted.effective g := by
    intro level maxLevel g h
    simp only [Scripted.engine] at h
    split at h
    · simp at h
    · simp only [Except.ok.injEq] at h
      subst h
      rfl
  have hthm := C9_fall_interval_follows_engine_at_soft_drop_toggles (Scripted.engine [])
    sampleEnv Scripted.effective hnew (fun _ => rfl)
  exact ⟨hthm.1 sampleKeys 0 sampleInput (freshWorld []) rfl, rfl⟩

/-- Claim C10: in every Running session state in which the engine's HardDrop succeeds,
handling the HardDrop key invokes HardDrop once (the engine state afterwards is the one
that call leaves) and returns, after the two empty clock commands, one reset command
carrying the fall clock's identity, which is the identity of no other stopwatch; the
session clock, the fall clock (its interval included), the paused flag and the end-delay
stopwatch are unchanged, and applying the reset clears the fall clock's elapsed time
only. -/
theorem C10_hard_drop_resets_fall_timer (eng : Engine G) (env : Env) (w : World G)
    (k : String) (r : Bool × G) (hw : Reachable eng env w)
    (hk : w.m.keys.bindings.lookup k = some Action.HardDrop)
    (hr : w.m.isRunning eng = true) (hd : eng.HardDrop w.m.game = Except.ok r) :
    ∃ w', Model.Update eng env w (Msg.KeyMsg k) =
        Except.ok (w', Cmd.Batch [TimerCmd.none, TimerCmd.none,
          TimerCmd.reset w.m.fallStopwatch.ID]) ∧
      w'.m.game = r.2 ∧ w'.m.timer = w.m.timer ∧ w'.m.fallStopwatch = w.m.fallStopwatch ∧
      w'.m.paused = w.m.paused ∧ w'.m.gameOverStopwatch = w.m.gameOverStopwatch ∧
      w'.lastID = w.lastID ∧
      w.m.timer.ID ≠ w.m.fallStopwatch.ID ∧
      w.m.gameOverStopwatch.ID ≠ w.m.fallStopwatch.ID ∧
      ∃ w2, Model.deliver eng env w' [Msg.ResetMsg w.m.fallStopwatch.ID] = Except.ok w2 ∧
        w2.m.timer = w.m.timer ∧ w2.m.gameOverStopwatch = w.m.gameOverStopwatch ∧
        w2.m.fallStopwatch = { w.m.fallStopwatch with d := 0 } := by
  obtain ⟨i1, i2, i3, i4⟩ := Reachable.inv eng env w hw
  obtain ⟨lastID, ⟨styles, help, keys, timer, fs, paused, fall, go, game⟩⟩ := w
  simp only [Model.isRunning, Bool.and_eq_true, Bool.not_eq_true'] at hr
  obtain ⟨hp, ho⟩ := hr
  simp only at hp ho hk hd i1 i2 i3 i4
  subst hp
  have n1 : ¬ timer.id = fall.id := by omega
  have n2 : ¬ go.id = fall.id := by omega
  have n3 : ¬ fall.id = timer.id := by omega
  simp [Model.Update, Model.alwaysOps, Model.gameplayOps, stopwatch.Model.Update,
    Matches, hk, ho, hd, stopwatch.Model.Reset, stopwatch.Model.ID, n1, n2, n3,
    Model.deliver]

/-- Claim C10 on the scripted engine: in a started session the HardDrop key makes the
engine record exactly one HardDrop, the command returned is the reset of the fall clock
2, and the fall interval is still 1 s. -/
theorem C10_hard_drop_resets_fall_timer_witness :
    (startedWorld []).m.isRunning (Scripted.engine []) = true ∧
      (Model.Update (Scripted.engine []) sampleEnv (startedWorld [])
          (Msg.KeyMsg "space")).map
        (fun r => (r.1.m.game.log, r.1.m.fallStopwatch.Interval, r.2)) =
        Except.ok ([Call.HardDrop], 1000000000,
          Cmd.Batch [TimerCmd.none, TimerCmd.none, TimerCmd.reset 2]) := by
  obtain ⟨w', h, hg, -, hf, -⟩ :=
    C10_hard_drop_resets_fall_timer (Scripted.engine []) sampleEnv (startedWorld [])
      "space"
      (false, { over := false, soft := false, level := 0, script := [],
                log := [Call.HardDrop] })
      (session_reachable [] [Msg.StartStopMsg 1 true, Msg.StartStopMsg 2 true] _ rfl)
      rfl rfl rfl
  refine ⟨rfl, ?_⟩
  rw [h]
  simp only [Except.map, hg, hf]
  rfl

end Claims

end Tetrigo
